import Mathlib

set_option maxRecDepth 8192

/-!
Shallow embedding of `src/stl-validator.py` (STL validator for Archivematica).

Modelling conventions:
* Python floats are modelled as exact rationals (`ℚ`), wrapped in `PyFloat`
  together with the IEEE-754 special values NaN and the two infinities that
  the binary decoder can produce.  The arithmetic used by the validator
  (subtraction, multiplication, addition, comparison with zero) is modelled
  exactly; IEEE rounding of extreme magnitudes is not modelled.
* The process-wide mutable globals of the script (`warning_count`,
  `error_count`, `line_index`, and the text printed for warnings) are threaded
  explicitly through a state type `VSt`.
* A raised `STLValidatorException` is modelled by the `VRes.exc` outcome; an
  unhandled Python exception (IndexError, ValueError, struct.error) is
  modelled by `VRes.fault`, which the orchestrator does not catch.
* Files are byte lists (`List Nat`, each entry taken mod 256).  Text-mode
  reading splits on byte 10; the validator only ever meets ASCII content in
  the claims below.
-/

/-- Python truthy severity constant `ERROR = True` from the source. -/
def pyERROR : Bool := true

/-- Python severity constant `WARNING = False` from the source. -/
def pyWARNING : Bool := false

/-- A single-quote character as a string (used when rendering messages). -/
def quo : String := String.mk [Char.ofNat 39]

/-- Python `\s` whitespace class membership used by `strip`, `split` and the
`re.sub` normalisation. -/
def pyIsSpace (c : Char) : Bool :=
  c = ' ' || c = Char.ofNat 9 || c = Char.ofNat 10 || c = Char.ofNat 13 ||
  c = Char.ofNat 11 || c = Char.ofNat 12

/-- Leading/trailing whitespace removal on a character list (Python `str.strip`). -/
def stripChars (l : List Char) : List Char :=
  ((l.dropWhile pyIsSpace).reverse.dropWhile pyIsSpace).reverse

/-- Python `str.strip`. -/
def pyStrip (s : String) : String := String.mk (stripChars s.data)

/-- Python `str.lstrip`. -/
def pyLstrip (s : String) : String := String.mk (s.data.dropWhile pyIsSpace)

/-- Collapse every run of whitespace to a single space; the boolean records
whether the previous character belonged to a whitespace run. -/
def collapseAux : Bool → List Char → List Char
  | _, [] => []
  | true, c :: r => if pyIsSpace c then collapseAux true r else c :: collapseAux false r
  | false, c :: r => if pyIsSpace c then ' ' :: collapseAux true r else c :: collapseAux false r

/-- The per-line normalisation of the ASCII validator:
`re.sub(r"\s+", " ", line.strip())`. -/
def normalizeLine (s : String) : String := String.mk (collapseAux false (stripChars s.data))

/-- Python `str.split()` (split on whitespace runs, dropping empty pieces):
accumulates the current word in reverse. -/
def wordsAux : List Char → List Char → List (List Char)
  | cur, [] => if cur.isEmpty then [] else [cur.reverse]
  | cur, c :: r =>
    if pyIsSpace c then
      (if cur.isEmpty then wordsAux [] r else cur.reverse :: wordsAux [] r)
    else wordsAux (c :: cur) r

/-- Python `str.split()` with no separator argument. -/
def pySplit (s : String) : List String := (wordsAux [] s.data).map String.mk

/-- `dropBegins l kw` returns the remainder of `l` after the literal word
`kw`, when `l` starts with `kw`. -/
def dropBegins : List Char → List Char → Option (List Char)
  | l, [] => some l
  | [], _ :: _ => none
  | c :: r, k :: ks => if c = k then dropBegins r ks else none

/-- Python `str.startswith`. -/
def strBegins (s kw : String) : Bool := (dropBegins s.data kw.data).isSome

/-- Drop the first `n` characters of a string (Python slicing `s[n:]`). -/
def strDrop (s : String) (n : Nat) : String := String.mk (s.data.drop n)

/-! ### The float token of the grammar

The validator matches each numeric field against the regular expression
`-?\d*(\.\d+)?([Ee][+-]?\d+)?` embedded in the `facet normal` and `vertex`
line patterns.  `takeFloat` consumes the maximal such token; because the token
alphabet is disjoint from the separator (a space) and from the end of line,
maximal munch agrees with the backtracking regex engine on these patterns. -/

/-- Consume the optional fractional part `(\.\d+)?`. -/
def dropFrac (l : List Char) : List Char :=
  match l with
  | c :: rest =>
    if c = '.' then
      (if rest.head?.any Char.isDigit then rest.dropWhile Char.isDigit else l)
    else l
  | [] => l

/-- Consume the optional exponent part `([Ee][+-]?\d+)?`. -/
def dropExp (l : List Char) : List Char :=
  match l with
  | c :: rest =>
    if c = 'e' || c = 'E' then
      let rest2 := match rest with
        | d :: r2 => if d = '+' || d = '-' then r2 else rest
        | [] => rest
      (if rest2.head?.any Char.isDigit then rest2.dropWhile Char.isDigit else l)
    else l
  | [] => l

/-- Consume the optional leading minus sign. -/
def dropMinus (l : List Char) : List Char :=
  match l with
  | c :: r => if c = '-' then r else l
  | [] => l

/-- Consume one maximal float token of the grammar, returning the rest. -/
def takeFloat (l : List Char) : List Char :=
  dropExp (dropFrac ((dropMinus l).dropWhile Char.isDigit))

/-- Match a whole line against `^<kw><float> <float> <float>$` where `<kw>`
already carries its trailing space (the source patterns
`^facet normal ...$` and `^vertex ...$`). -/
def matchTriple (kw : List Char) (l : List Char) : Bool :=
  match dropBegins l kw with
  | none => false
  | some r0 =>
    match takeFloat r0 with
    | c :: r2 =>
      if c = ' ' then
        match takeFloat r2 with
        | d :: r4 => if d = ' ' then (takeFloat r4).isEmpty else false
        | [] => false
      else false
    | [] => false

/-- The source pattern for `facet normal` lines. -/
def matchFacetLine (s : String) : Bool := matchTriple ("facet normal ").data s.data

/-- The source pattern for `vertex` lines. -/
def matchVertexLine (s : String) : Bool := matchTriple ("vertex ").data s.data

/-- The source pattern `^solid [^\n]+$` used to capture the solid name. -/
def matchSolidHeader (s : String) : Bool :=
  match dropBegins s.data ("solid ").data with
  | none => false
  | some r => !r.isEmpty && r.all (fun c => !(c = Char.ofNat 10))

/-- Turn a digit list into a natural number. -/
def digitsToNat (l : List Char) : Nat :=
  l.foldl (fun acc c => 10 * acc + (c.toNat - 48)) 0

/-- An exact rational as an unreduced numerator/denominator pair.  Every
fraction the validator builds has a positive denominator (a power of 2 or
10), so sign tests read the numerator; keeping the pair unreduced lets the
kernel evaluate all arithmetic. -/
structure Frac where
  num : Int
  den : Nat
deriving DecidableEq

/-- The rational value of a fraction. -/
def Frac.toRat (a : Frac) : ℚ := (a.num : ℚ) / (a.den : ℚ)

/-- Fraction subtraction. -/
def fSub (a b : Frac) : Frac := ⟨a.num * b.den - b.num * a.den, a.den * b.den⟩

/-- Fraction addition. -/
def fAdd (a b : Frac) : Frac := ⟨a.num * b.den + b.num * a.den, a.den * b.den⟩

/-- Fraction multiplication. -/
def fMul (a b : Frac) : Frac := ⟨a.num * b.num, a.den * b.den⟩

/-- Sign test `x < 0` (for positive denominators). -/
def fLt0 (a : Frac) : Bool := a.num < 0

/-- Sign test `x > 0` (for positive denominators). -/
def fGt0 (a : Frac) : Bool := 0 < a.num

/-- Zero test (for positive denominators). -/
def fIsZero (a : Frac) : Bool := a.num = 0


/-- Python `float(token)` on the tokens admitted by the grammar, as an exact
fraction over a power-of-ten denominator.  Returns `none` when `float` would
raise `ValueError` (a token with no digit in its mantissa, such as `-` or
`E5`). -/
def pyFloatOfToken (s : String) : Option Frac :=
  let l := s.data
  let neg := l.head? = some '-'
  let l1 := dropMinus l
  let ip := l1.span Char.isDigit
  let fp :=
    match ip.2 with
    | c :: rest =>
      if c = '.' then
        (if rest.head?.any Char.isDigit then some (rest.span Char.isDigit) else none)
      else some ([], ip.2)
    | [] => some ([], [])
  match fp with
  | none => none
  | some (fdigits, rest2) =>
    if ip.1.isEmpty && fdigits.isEmpty then none
    else
      let expPart :=
        match rest2 with
        | c :: r =>
          if c = 'e' || c = 'E' then
            match r with
            | d :: r2 =>
              if d = '+' then
                (if r2.all Char.isDigit && !r2.isEmpty then some ((digitsToNat r2 : ℤ)) else none)
              else if d = '-' then
                (if r2.all Char.isDigit && !r2.isEmpty then some (-(digitsToNat r2 : ℤ)) else none)
              else
                (if r.all Char.isDigit then some ((digitsToNat r : ℤ)) else none)
            | [] => none
          else none
        | [] => some 0
    match expPart with
      | none => none
      | some e =>
        let n0 : Int := (digitsToNat ip.1 * 10 ^ fdigits.length + digitsToNat fdigits : Nat)
        let mag : Frac :=
          if 0 ≤ e then ⟨n0 * 10 ^ e.toNat, 10 ^ fdigits.length⟩
          else ⟨n0, 10 ^ fdigits.length * 10 ^ (-e).toNat⟩
        some (if neg then ⟨-mag.num, mag.den⟩ else mag)

/-! ### Python float values and the vector geometry of the source -/

/-- A Python float as far as this validator observes it: NaN, signed
infinity, or an exact finite value. -/
inductive PyFloat where
  | nan : PyFloat
  | inf (neg : Bool) : PyFloat
  | val (q : Frac) : PyFloat
deriving DecidableEq

/-- Python float subtraction with NaN/infinity propagation. -/
def pfSub : PyFloat → PyFloat → PyFloat
  | .nan, _ => .nan
  | _, .nan => .nan
  | .inf a, .inf b => if a = b then .nan else .inf a
  | .inf a, .val _ => .inf a
  | .val _, .inf b => .inf (!b)
  | .val a, .val b => .val (fSub a b)

/-- Python float multiplication with NaN/infinity propagation. -/
def pfMul : PyFloat → PyFloat → PyFloat
  | .nan, _ => .nan
  | _, .nan => .nan
  | .inf a, .inf b => .inf (a != b)
  | .inf a, .val q => if fIsZero q then .nan else .inf (a != fLt0 q)
  | .val q, .inf b => if fIsZero q then .nan else .inf (b != fLt0 q)
  | .val a, .val b => .val (fMul a b)

/-- Python float addition with NaN/infinity propagation. -/
def pfAdd : PyFloat → PyFloat → PyFloat
  | .nan, _ => .nan
  | _, .nan => .nan
  | .inf a, .inf b => if a = b then .inf a else .nan
  | .inf a, .val _ => .inf a
  | .val _, .inf b => .inf b
  | .val a, .val b => .val (fAdd a b)

/-- Python `x > 0` on floats (`False` for NaN). -/
def pfGt0 : PyFloat → Bool
  | .nan => false
  | .inf b => !b
  | .val q => fGt0 q

/-- Python `x < 0` on floats (`False` for NaN). -/
def pfLt0 : PyFloat → Bool
  | .nan => false
  | .inf b => b
  | .val q => fLt0 q

/-- Python `math.isnan`. -/
def pfIsNaN : PyFloat → Bool
  | .nan => true
  | _ => false

/-- A 3-component vector of Python floats. -/
structure V3 where
  x : PyFloat
  y : PyFloat
  z : PyFloat
deriving DecidableEq

/-- `dot_product(v1, v2)` from the source: `sum(x * y for x, y in zip(v1, v2))`,
with Python `sum` starting from `0` and adding left to right. -/
def dot_product (a b : V3) : PyFloat :=
  pfAdd (pfAdd (pfAdd (.val ⟨0, 1⟩) (pfMul a.x b.x)) (pfMul a.y b.y)) (pfMul a.z b.z)

/-- `cross_product(v1, v2)` from the source. -/
def cross_product (a b : V3) : V3 :=
  ⟨pfSub (pfMul a.y b.z) (pfMul a.z b.y),
   pfSub (pfMul a.z b.x) (pfMul a.x b.z),
   pfSub (pfMul a.x b.y) (pfMul a.y b.x)⟩

/-- Componentwise `v2 - v1` (the edge computation of `is_counterclockwise`). -/
def vSub (b a : V3) : V3 := ⟨pfSub b.x a.x, pfSub b.y a.y, pfSub b.z a.z⟩

/-- `is_counterclockwise(vertex1, vertex2, vertex3, normal)` from the source. -/
def is_counterclockwise (v1 v2 v3 normal : V3) : Bool :=
  pfGt0 (dot_product (cross_product (vSub v2 v1) (vSub v3 v1)) normal)

/-- Embed an exact rational triple as a `V3` of finite Python floats
(a rational `q` becomes the fraction `q.num / q.den`, whose denominator is
positive). -/
def toV3 (t : ℚ × ℚ × ℚ) : V3 :=
  ⟨.val ⟨t.1.num, t.1.den⟩, .val ⟨t.2.1.num, t.2.1.den⟩, .val ⟨t.2.2.num, t.2.2.den⟩⟩

/-! ### Validator state, results and the effect monad -/

/-- An unhandled Python exception (not an `STLValidatorException`). -/
inductive PyFault where
  | indexError : PyFault
  | valueError : PyFault
  | structError : PyFault
deriving DecidableEq

/-- The process-wide mutable globals of the script: `warning_count`,
`error_count`, `line_index`, and the lines printed to standard output. -/
structure VSt where
  warnings : Nat
  errors : Nat
  lineIdx : Nat
  printed : List String
deriving DecidableEq

/-- The module state at interpreter start-up. -/
def freshSt : VSt := ⟨0, 0, 0, []⟩

/-- Outcome of running a piece of validator code: normal return, a raised
`STLValidatorException` carrying its rendered message, or an unhandled
Python fault. -/
inductive VRes (α : Type) where
  | ok (a : α) (s : VSt)
  | exc (msg : String) (s : VSt)
  | fault (f : PyFault) (s : VSt)
deriving DecidableEq

/-- State-passing computations over `VSt` with the two abnormal outcomes. -/
def M (α : Type) := VSt → VRes α

/-- Monadic return for `M`. -/
def mPure {α : Type} (a : α) : M α := fun s => .ok a s

/-- Monadic bind for `M`: exceptions and faults short-circuit. -/
def mBind {α β : Type} (x : M α) (f : α → M β) : M β := fun s =>
  match x s with
  | .ok a s1 => f a s1
  | .exc m s1 => .exc m s1
  | .fault e s1 => .fault e s1

instance : Monad M where
  pure := mPure
  bind := mBind

/-- Running a bind: definitional unfolding lemma. -/
theorem run_bind {α β : Type} (x : M α) (f : α → M β) (s : VSt) :
    (x >>= f) s = match x s with
      | .ok a s1 => f a s1
      | .exc m s1 => .exc m s1
      | .fault e s1 => .fault e s1 := rfl

/-- Running `pure`: definitional unfolding lemma. -/
theorem run_pure {α : Type} (a : α) (s : VSt) : (pure a : M α) s = .ok a s := rfl

/-! ### The diagnostic handlers of the source -/

/-- Render `Expected '<expected>' but got '<got>'.` / `<expected>.` after the
given location text, exactly as the two handlers do (including Python's
truthiness test `if got:` which treats `None` and the empty string alike). -/
def renderMsg (kind loc expected : String) (got : Option String) : String :=
  match got with
  | some g =>
    if g = "" then kind ++ " on " ++ loc ++ ": " ++ expected ++ "."
    else kind ++ " on " ++ loc ++ ": Expected " ++ quo ++ expected ++ quo ++
      " but got " ++ quo ++ pyStrip g ++ quo ++ "."
  | none => kind ++ " on " ++ loc ++ ": " ++ expected ++ "."

/-- The state change of a recorded warning: bump `warning_count` and, when
`--warnings` is active, print the rendered line. -/
def warnSt (verbose : Bool) (loc expected : String) (got : Option String) (s : VSt) : VSt :=
  { s with warnings := s.warnings + 1,
           printed := s.printed ++ (if verbose then [renderMsg "Warning" loc expected got] else []) }

/-- The state change of a recorded error: bump `error_count`; the raised
`STLValidatorException` prints its message on construction (`DEBUG = 1`). -/
def errorSt (loc expected : String) (got : Option String) (s : VSt) : VSt :=
  { s with errors := s.errors + 1,
           printed := s.printed ++ [renderMsg "Error" loc expected got] }

/-- `handle_error_with_line_index(type, expected, got)` from the source. -/
def handle_error_with_line_index (verbose : Bool) (ty : Bool) (expected : String)
    (got : Option String) : M Unit := fun s =>
  if ty then .exc (renderMsg "Error" ("line " ++ toString (s.lineIdx + 1)) expected got)
          (errorSt ("line " ++ toString (s.lineIdx + 1)) expected got s)
  else .ok () (warnSt verbose ("line " ++ toString (s.lineIdx + 1)) expected got s)

/-- `handle_error_with_file_pos(type, pos, expected, got)` from the source. -/
def handle_error_with_file_pos (verbose : Bool) (ty : Bool) (pos : Nat) (expected : String)
    (got : Option String) : M Unit := fun s =>
  if ty then .exc (renderMsg "Error" ("position " ++ toString pos) expected got)
          (errorSt ("position " ++ toString pos) expected got s)
  else .ok () (warnSt verbose ("position " ++ toString pos) expected got s)

/-! ### The line cursor of the ASCII validator -/

/-- `get_current_line()`: `lines[line_index]`, raising `IndexError` past the
end of the list. -/
def get_current_line (lines : List String) : M String := fun s =>
  match lines.get? s.lineIdx with
  | some l => .ok l s
  | none => .fault .indexError s

/-- The `while` loop of `skip_empty_lines()`: skip blank lines (except a
final one), recording a warning for each skip.  The structural fuel argument
bounds the iteration count; `lines.length` is always sufficient because each
iteration needs `lineIdx + 1 < lines.length` and advances `lineIdx`. -/
def skipGo (lines : List String) (verbose : Bool) : Nat → VSt → VSt
  | 0, s => s
  | fuel + 1, s =>
    if lines.length > s.lineIdx + 1 ∧ pyStrip (lines.getD s.lineIdx "") = "" then
      skipGo lines verbose fuel
        { (warnSt verbose ("line " ++ toString (s.lineIdx + 1)) "Line is empty" none s) with
          lineIdx := s.lineIdx + 1 }
    else s

/-- `skip_empty_lines()` as an `M` action. -/
def skip_empty_lines (lines : List String) (verbose : Bool) : M Unit := fun s =>
  .ok () (skipGo lines verbose lines.length s)

/-- `go_to_next_line()`: advance the cursor, then skip blank lines. -/
def go_to_next_line (lines : List String) (verbose : Bool) : M Unit := fun s =>
  .ok () (skipGo lines verbose lines.length { s with lineIdx := s.lineIdx + 1 })

/-! ### Byte-level input, the format detector, and the binary validator -/

/-- Read one byte of the file (files are byte lists; entries are reduced
mod 256). -/
def byteAt (f : List Nat) (i : Nat) : Nat := (f.getD i 0) % 256

/-- The little-endian 32-bit value starting at offset `i`. -/
def le32At (f : List Nat) (i : Nat) : Nat :=
  byteAt f i + 256 * byteAt f (i + 1) + 65536 * byteAt f (i + 2) + 16777216 * byteAt f (i + 3)

/-- `struct.unpack('<I', file.read(4))`: `struct.error` (modelled as `none`)
when fewer than 4 bytes remain. -/
def unpackLE32At (f : List Nat) (i : Nat) : Option Nat :=
  if i + 4 ≤ f.length then some (le32At f i) else none

/-- `struct.unpack('<H', file.read(2))`. -/
def unpackLE16At (f : List Nat) (i : Nat) : Option Nat :=
  if i + 2 ≤ f.length then some (byteAt f i + 256 * byteAt f (i + 1)) else none

/-- Decode a little-endian IEEE-754 single-precision float from 4 bytes into
a `PyFloat`; finite values are decoded exactly. -/
def decodeF32 (b0 b1 b2 b3 : Nat) : PyFloat :=
  let u : Nat := (b0 % 256) + 256 * (b1 % 256) + 65536 * (b2 % 256) + 16777216 * (b3 % 256)
  let sign : Nat := u / 2 ^ 31
  let ex : Nat := (u / 2 ^ 23) % 256
  let mant : Nat := u % 2 ^ 23
  if ex = 255 then (if mant = 0 then .inf (sign = 1) else .nan)
  else
    let mag : Frac :=
      if ex = 0 then ⟨(mant : Int), 2 ^ 149⟩
      else ⟨((2 ^ 23 + mant) * 2 ^ ex : Nat), 2 ^ 150⟩
    .val (if sign = 1 then ⟨-mag.num, mag.den⟩ else mag)

/-- `struct.unpack('<3f', file.read(12))`: `none` models `struct.error` on a
short read. -/
def unpack3fAt (f : List Nat) (i : Nat) : Option V3 :=
  if i + 12 ≤ f.length then
    some ⟨decodeF32 (byteAt f i) (byteAt f (i + 1)) (byteAt f (i + 2)) (byteAt f (i + 3)),
          decodeF32 (byteAt f (i + 4)) (byteAt f (i + 5)) (byteAt f (i + 6)) (byteAt f (i + 7)),
          decodeF32 (byteAt f (i + 8)) (byteAt f (i + 9)) (byteAt f (i + 10)) (byteAt f (i + 11))⟩
  else none

/-- `is_binary_stl(file_path)` from the source: read the 4-byte little-endian
triangle count after the 80-byte header and compare `80 + 4 + 50 * count`
with the file size; a file shorter than 84 bytes is textual. -/
def is_binary_stl (f : List Nat) : Bool :=
  match unpackLE32At f 80 with
  | none => false
  | some t => decide (80 + 4 + 50 * t = f.length)

/-- `any(coord < 0 for coord in vertex1 + vertex2 + vertex3)`. -/
def anyNegCoord (v1 v2 v3 : V3) : Bool :=
  pfLt0 v1.x || pfLt0 v1.y || pfLt0 v1.z ||
  pfLt0 v2.x || pfLt0 v2.y || pfLt0 v2.z ||
  pfLt0 v3.x || pfLt0 v3.y || pfLt0 v3.z

/-- `any(math.isnan(v) for v in normal + vertex1 + vertex2 + vertex3)`. -/
def anyNaN (n v1 v2 v3 : V3) : Bool :=
  pfIsNaN n.x || pfIsNaN n.y || pfIsNaN n.z ||
  pfIsNaN v1.x || pfIsNaN v1.y || pfIsNaN v1.z ||
  pfIsNaN v2.x || pfIsNaN v2.y || pfIsNaN v2.z ||
  pfIsNaN v3.x || pfIsNaN v3.y || pfIsNaN v3.z

/-- The per-record checks of `validate_binary_stl_file`, in source order:
negative vertex coordinates (soft), winding order (soft, but reported through
the line-index handler), NaN coordinates (hard), attribute bytes (hard). -/
def processRecord (strict verbose : Bool) (i : Nat) (normal v1 v2 v3 : V3) (attr : Nat) :
    M Unit := do
  let pos := 84 + i * 50
  if anyNegCoord v1 v2 v3 then
    handle_error_with_file_pos verbose (pyWARNING || strict) pos
      "Not all vertices of this facet have positive values" none
  else pure ()
  if !is_counterclockwise v1 v2 v3 normal then
    handle_error_with_line_index verbose (pyWARNING || strict)
      "Vertices of this facet are not ordered counterclockwise" none
  else pure ()
  if anyNaN normal v1 v2 v3 then
    handle_error_with_file_pos verbose pyERROR pos
      "File contains NaN values in normal or vertex coordinates" none
  else pure ()
  if attr ≠ 0 then
    handle_error_with_file_pos verbose pyERROR pos
      ("Attribute byte count should be " ++ quo ++ "0" ++ quo ++ ", but got " ++
        quo ++ toString attr ++ quo) none
  else pure ()

/-- The `for i in range(triangle_count)` loop of `validate_binary_stl_file`;
the first argument counts the remaining iterations, the second is `i`.  Each
iteration performs the five reads in source order (a short read is a
`struct.error` fault) and then the record checks. -/
def binLoop (strict verbose : Bool) (f : List Nat) : Nat → Nat → M Unit
  | 0, _ => pure ()
  | k + 1, i => fun s =>
    match unpack3fAt f (84 + i * 50) with
    | none => .fault .structError s
    | some normal =>
      match unpack3fAt f (84 + i * 50 + 12) with
      | none => .fault .structError s
      | some v1 =>
        match unpack3fAt f (84 + i * 50 + 24) with
        | none => .fault .structError s
        | some v2 =>
          match unpack3fAt f (84 + i * 50 + 36) with
          | none => .fault .structError s
          | some v3 =>
            match unpackLE16At f (84 + i * 50 + 48) with
            | none => .fault .structError s
            | some attr =>
              (processRecord strict verbose i normal v1 v2 v3 attr >>=
                fun _ => binLoop strict verbose f k (i + 1)) s

/-- `validate_binary_stl_file(file_path)` from the source. -/
def validate_binary_stl_file (strict verbose : Bool) (f : List Nat) : M Unit := fun s =>
  match unpackLE32At f 80 with
  | none => .fault .structError s
  | some t => binLoop strict verbose f t 0 s

/-! ### The ASCII grammar validator -/

/-- `len([line for line in lines if line.strip()])`. -/
def countNonBlank (lines : List String) : Nat :=
  (lines.filter (fun l => !(pyStrip l == ""))).length

/-- `total_facet_count = (len([...]) - 2) // 7` with Python floor division. -/
def total_facet_count (lines : List String) : Int :=
  ((countNonBlank lines : Int) - 2).fdiv 7

/-- Exactly three successfully converted float tokens. -/
def floats3 (toks : List String) : Option (Frac × Frac × Frac) :=
  match toks.map pyFloatOfToken with
  | [some a, some b, some c] => some (a, b, c)
  | _ => none

/-- `list(map(float, tokens))` packed into a `V3`.  A token `float` rejects
is a `ValueError` fault; the token count is fixed at 3 by the line patterns
(on other counts Python would fault later, at the vector indexing). -/
def parseFloats (toks : List String) : M V3 := fun s =>
  if (toks.map pyFloatOfToken).contains none then .fault .valueError s
  else
    match floats3 toks with
    | some (a, b, c) => .ok ⟨.val a, .val b, .val c⟩ s
    | none => .fault .indexError s

/-- One vertex line of a facet, in source order: pattern check (hard error on
mismatch), parse, advance, then the soft negative-coordinate check. -/
def readVertex (strict verbose : Bool) (lines : List String) : M V3 := do
  let c ← get_current_line lines
  if !matchVertexLine c then
    handle_error_with_line_index verbose pyERROR
      "vertex <unsigned float> <unsigned float> <unsigned float>" (some c)
  else pure ()
  let c2 ← get_current_line lines
  let v ← parseFloats ((pySplit c2).drop 1)
  go_to_next_line lines verbose
  if pfLt0 v.x || pfLt0 v.y || pfLt0 v.z then
    handle_error_with_line_index verbose (pyWARNING || strict)
      "Not all vertice coordinates have positive values" none
  else pure ()
  pure v

/-- One facet iteration of the ASCII validator, in source order. -/
def validateFacet (strict verbose : Bool) (lines : List String) : M Unit := do
  let c0 ← get_current_line lines
  if !matchFacetLine c0 then
    handle_error_with_line_index verbose pyERROR
      "facet normal <float> <float> <float>" (some c0)
  else pure ()
  let c0b ← get_current_line lines
  let normal ← parseFloats ((pySplit c0b).drop 2)
  go_to_next_line lines verbose
  let c1 ← get_current_line lines
  if !(c1 = "outer loop") then
    handle_error_with_line_index verbose pyERROR "outer loop" (some c1)
  else pure ()
  go_to_next_line lines verbose
  let v1 ← readVertex strict verbose lines
  let v2 ← readVertex strict verbose lines
  let v3 ← readVertex strict verbose lines
  if !is_counterclockwise v1 v2 v3 normal then
    handle_error_with_line_index verbose (pyWARNING || strict)
      "Vertices of this facet are not ordered counterclockwise" none
  else pure ()
  let c4 ← get_current_line lines
  if !(c4 = "endloop") then
    handle_error_with_line_index verbose pyERROR "endloop" (some c4)
  else pure ()
  go_to_next_line lines verbose
  let c5 ← get_current_line lines
  if !(c5 = "endfacet") then
    handle_error_with_line_index verbose pyERROR "endfacet" (some c5)
  else pure ()
  go_to_next_line lines verbose

/-- `for _ in range(total_facet_count)` over `validateFacet`. -/
def facetLoop (strict verbose : Bool) (lines : List String) : Nat → M Unit
  | 0 => pure ()
  | k + 1 => validateFacet strict verbose lines >>= fun _ => facetLoop strict verbose lines k

/-- The body of `validate_ascii_stl_file` after the line list has been read
and normalised; the cursor has already been reset by `init_line`. -/
def asciiBody (strict verbose : Bool) (lines : List String) : M Unit := do
  skip_empty_lines lines verbose
  let cur0 ← get_current_line lines
  if !strBegins cur0 "solid" then
    handle_error_with_line_index verbose pyERROR "solid" (some cur0)
  else pure ()
  let cur1 ← get_current_line lines
  let solidName ←
    if !matchSolidHeader cur1 then do
      handle_error_with_line_index verbose pyWARNING "solid <string>" (some cur1)
      pure ""
    else pure (pyLstrip (strDrop cur1 6))
  go_to_next_line lines verbose
  facetLoop strict verbose lines (total_facet_count lines).toNat
  let curF ← get_current_line lines
  if !strBegins curF "endsolid" then
    handle_error_with_line_index verbose pyERROR "endsolid" (some curF)
  else pure ()
  if solidName ≠ "" then do
    let curG ← get_current_line lines
    if !(("endsolid " ++ solidName) = curG) then
      handle_error_with_line_index verbose (pyWARNING || strict)
        ("endsolid " ++ solidName) (some curG)
    else pure ()
  else pure ()
  go_to_next_line lines verbose

/-- `validate_ascii_stl_file(target)` from the source: normalise every raw
line, reset the cursor (`init_line` sets `line_index = 0`), then run the
grammar walk. -/
def validate_ascii_stl_file (strict verbose : Bool) (raw : List String) : M Unit := fun s =>
  asciiBody strict verbose (raw.map normalizeLine) { s with lineIdx := 0 }

/-! ### The orchestrator -/

/-- Split a byte list into text lines at byte 10 (current word reversed). -/
def splitBAux : List Char → List Nat → List String
  | cur, [] => [String.mk cur.reverse]
  | cur, b :: rest =>
    if b = 10 then String.mk cur.reverse :: splitBAux [] rest
    else splitBAux (Char.ofNat (b % 256) :: cur) rest

/-- Python `open(path).readlines()` (without the kept newline characters,
which the per-line strip would discard anyway): an empty file has no lines,
and a trailing newline does not create a final empty line. -/
def linesOfBytes (bs : List Nat) : List String :=
  if bs = [] then []
  else if bs.getLast? = some 10 then (splitBAux [] bs).dropLast
  else splitBAux [] bs

/-- `format_event_outcome_detail_note(format, version, result)` from the
source. -/
def format_event_outcome_detail_note (format version result : Option String) : String :=
  let n0 := "format=" ++ "\"" ++ format.getD "" ++ "\"" ++ ";"
  let n1 := match version with
    | some v => n0 ++ " version=" ++ "\"" ++ v ++ "\"" ++ ";"
    | none => n0
  match result with
  | some r => n1 ++ " result=" ++ "\"" ++ r ++ "\""
  | none => n1

/-- The validator chosen by the format detector. -/
def dispatchValidator (strict verbose : Bool) (content : List Nat) : M Unit :=
  if is_binary_stl content then validate_binary_stl_file strict verbose content
  else validate_ascii_stl_file strict verbose (linesOfBytes content)

/-- The emitted report object (stdout carries `None` on failure). -/
structure Report where
  eventOutcomeInformation : String
  eventOutcomeDetailNote : String
  stdout : Option String
deriving DecidableEq

/-- The end of a run: a process exit with its report, or an unhandled Python
fault escaping `validate_stl_file` (only `STLValidatorException` is caught). -/
inductive RunOut where
  | exit (code : Nat) (report : Report) (s : VSt)
  | crash (f : PyFault) (s : VSt)
deriving DecidableEq

/-- `validate_stl_file(file_path)` from the source, with the file content
supplied explicitly and the final global state carried in the result. -/
def validate_stl_file (strict verbose : Bool) (path : String) (content : List Nat)
    (s0 : VSt) : RunOut :=
  let version := if is_binary_stl content then "binary" else "ASCII"
  match dispatchValidator strict verbose content s0 with
  | .ok _ s =>
    if s.errors > 0 then
      let m := "Validation failed: errors=" ++ toString s.errors ++ ", warnings=" ++
        toString s.warnings ++ ", first error: "
      .exit 1 ⟨"fail", m, none⟩ { s with printed := s.printed ++ [m] }
    else
      let note := format_event_outcome_detail_note
        (some "STL (Standard Tessellation Language)") (some version)
        (some ("errors: " ++ toString s.errors ++ ", warnings: " ++ toString s.warnings))
      .exit 0 ⟨"pass", note, some (path ++ " validates.")⟩ s
  | .exc m s => .exit 1 ⟨"fail", m, none⟩ s
  | .fault e s => .crash e s

/-- Encode a string as file bytes (ASCII content). -/
def bytesOfString (s : String) : List Nat := s.data.map Char.toNat

/-- The facet-iteration count the ASCII validator uses for a raw line list:
`range` of a negative Python int is empty, whence the `Int.toNat`. -/
def facetIterations (raw : List String) : Nat :=
  (total_facet_count (raw.map normalizeLine)).toNat

/-! ### Specification-side vector formulas (for comparison with the code) -/

/-- Componentwise difference on rational triples, following the spec text
`edge1 = v2 - v1`. -/
def specSub (b a : ℚ × ℚ × ℚ) : ℚ × ℚ × ℚ :=
  (b.1 - a.1, b.2.1 - a.2.1, b.2.2 - a.2.2)

/-- The cross product on rational triples, following the spec text. -/
def specCross (a b : ℚ × ℚ × ℚ) : ℚ × ℚ × ℚ :=
  (a.2.1 * b.2.2 - a.2.2 * b.2.1, a.2.2 * b.1 - a.1 * b.2.2, a.1 * b.2.1 - a.2.1 * b.1)

/-- The dot product on rational triples, following the spec text. -/
def specDot (a b : ℚ × ℚ × ℚ) : ℚ :=
  a.1 * b.1 + a.2.1 * b.2.1 + a.2.2 * b.2.2

/-- The spec formula for counterclockwise winding:
`dot(cross(v2 - v1, v3 - v1), normal) > 0`. -/
def specCCW (v1 v2 v3 normal : ℚ × ℚ × ℚ) : Prop :=
  0 < specDot (specCross (specSub v2 v1) (specSub v3 v1)) normal

/-! ### Helper lemmas about fractions -/

/-- `fGt0` reads the sign of the value when the denominator is positive. -/
theorem fGt0_iff_toRat (a : Frac) (h : 0 < a.den) : fGt0 a = true ↔ 0 < a.toRat := by
  unfold fGt0 Frac.toRat
  rw [lt_div_iff₀ (by exact_mod_cast h)]
  simp [Int.cast_pos]

/-- Positive-denominator condition for a fraction triple. -/
def posDen3 (t : Frac × Frac × Frac) : Prop :=
  0 < t.1.den ∧ 0 < t.2.1.den ∧ 0 < t.2.2.den

instance (t : Frac × Frac × Frac) : Decidable (posDen3 t) := by
  unfold posDen3
  infer_instance

/-- A vector of three finite Python floats. -/
def valV3 (t : Frac × Frac × Frac) : V3 := ⟨.val t.1, .val t.2.1, .val t.2.2⟩

/-- The rational values of a fraction triple. -/
def ratsOf (t : Frac × Frac × Frac) : ℚ × ℚ × ℚ := (t.1.toRat, t.2.1.toRat, t.2.2.toRat)

/-- On finite floats with positive denominators, the code's
`is_counterclockwise` decides exactly the spec inequality
`dot(cross(v2 - v1, v3 - v1), normal) > 0`. -/
theorem ccwFrac_iff (v1 v2 v3 n : Frac × Frac × Frac)
    (h1 : posDen3 v1) (h2 : posDen3 v2) (h3 : posDen3 v3) (hn : posDen3 n) :
    (is_counterclockwise (valV3 v1) (valV3 v2) (valV3 v3) (valV3 n) = true ↔
      specCCW (ratsOf v1) (ratsOf v2) (ratsOf v3) (ratsOf n)) := by
  obtain ⟨v1a, v1b, v1c⟩ := v1
  obtain ⟨v2a, v2b, v2c⟩ := v2
  obtain ⟨v3a, v3b, v3c⟩ := v3
  obtain ⟨na, nb, nc⟩ := n
  obtain ⟨p1a, p1b, p1c⟩ := h1
  obtain ⟨p2a, p2b, p2c⟩ := h2
  obtain ⟨p3a, p3b, p3c⟩ := h3
  obtain ⟨pna, pnb, pnc⟩ := hn
  simp only [valV3, is_counterclockwise, vSub, pfSub, cross_product, pfMul, dot_product, pfAdd,
    pfGt0]
  rw [fGt0_iff_toRat]
  case h =>
    simp only [fAdd, fMul, fSub]
    simp only [] at p1a p1b p1c p2a p2b p2c p3a p3b p3c pna pnb pnc
    repeat first
      | exact Nat.one_pos
      | assumption
      | apply Nat.mul_pos
  have key : (fAdd (fAdd (fAdd ⟨0, 1⟩
      (fMul (fSub (fMul (fSub v2b v1b) (fSub v3c v1c)) (fMul (fSub v2c v1c) (fSub v3b v1b))) na))
      (fMul (fSub (fMul (fSub v2c v1c) (fSub v3a v1a)) (fMul (fSub v2a v1a) (fSub v3c v1c))) nb))
      (fMul (fSub (fMul (fSub v2a v1a) (fSub v3b v1b)) (fMul (fSub v2b v1b) (fSub v3a v1a))) nc)).toRat
      = specDot (specCross (specSub (ratsOf (v2a, v2b, v2c)) (ratsOf (v1a, v1b, v1c)))
          (specSub (ratsOf (v3a, v3b, v3c)) (ratsOf (v1a, v1b, v1c)))) (ratsOf (na, nb, nc)) := by
    have e1a : ((v1a.den : ℚ)) ≠ 0 := Nat.cast_ne_zero.2 (Nat.pos_iff_ne_zero.1 p1a)
    have e1b : ((v1b.den : ℚ)) ≠ 0 := Nat.cast_ne_zero.2 (Nat.pos_iff_ne_zero.1 p1b)
    have e1c : ((v1c.den : ℚ)) ≠ 0 := Nat.cast_ne_zero.2 (Nat.pos_iff_ne_zero.1 p1c)
    have e2a : ((v2a.den : ℚ)) ≠ 0 := Nat.cast_ne_zero.2 (Nat.pos_iff_ne_zero.1 p2a)
    have e2b : ((v2b.den : ℚ)) ≠ 0 := Nat.cast_ne_zero.2 (Nat.pos_iff_ne_zero.1 p2b)
    have e2c : ((v2c.den : ℚ)) ≠ 0 := Nat.cast_ne_zero.2 (Nat.pos_iff_ne_zero.1 p2c)
    have e3a : ((v3a.den : ℚ)) ≠ 0 := Nat.cast_ne_zero.2 (Nat.pos_iff_ne_zero.1 p3a)
    have e3b : ((v3b.den : ℚ)) ≠ 0 := Nat.cast_ne_zero.2 (Nat.pos_iff_ne_zero.1 p3b)
    have e3c : ((v3c.den : ℚ)) ≠ 0 := Nat.cast_ne_zero.2 (Nat.pos_iff_ne_zero.1 p3c)
    have ena : ((na.den : ℚ)) ≠ 0 := Nat.cast_ne_zero.2 (Nat.pos_iff_ne_zero.1 pna)
    have enb : ((nb.den : ℚ)) ≠ 0 := Nat.cast_ne_zero.2 (Nat.pos_iff_ne_zero.1 pnb)
    have enc : ((nc.den : ℚ)) ≠ 0 := Nat.cast_ne_zero.2 (Nat.pos_iff_ne_zero.1 pnc)
    simp only [fAdd, fMul, fSub, Frac.toRat, ratsOf, specDot, specCross, specSub]
    push_cast
    field_simp
    ring
  rw [key]
  rfl

/-- C4: `is_counterclockwise(v1, v2, v3, normal)` returns true exactly when
`dot(cross(v2 - v1, v3 - v1), normal) > 0`, a strict inequality, so a facet
whose computed normal is zero is not counterclockwise; vertices
`(0,0,0), (1,0,0), (0,1,0)` with normal `(0,0,1)` are counterclockwise, and
swapping the last two vertices under the same normal is not. -/
theorem claim_C4 (v1 v2 v3 n : Frac × Frac × Frac)
    (h1 : posDen3 v1) (h2 : posDen3 v2) (h3 : posDen3 v3) (hn : posDen3 n) :
    (is_counterclockwise (valV3 v1) (valV3 v2) (valV3 v3) (valV3 n) = true ↔
      specCCW (ratsOf v1) (ratsOf v2) (ratsOf v3) (ratsOf n)) ∧
    (specCross (specSub (ratsOf v2) (ratsOf v1)) (specSub (ratsOf v3) (ratsOf v1)) = (0, 0, 0) →
      is_counterclockwise (valV3 v1) (valV3 v2) (valV3 v3) (valV3 n) = false) ∧
    is_counterclockwise (valV3 (⟨0,1⟩, ⟨0,1⟩, ⟨0,1⟩)) (valV3 (⟨1,1⟩, ⟨0,1⟩, ⟨0,1⟩))
      (valV3 (⟨0,1⟩, ⟨1,1⟩, ⟨0,1⟩)) (valV3 (⟨0,1⟩, ⟨0,1⟩, ⟨1,1⟩)) = true ∧
    is_counterclockwise (valV3 (⟨0,1⟩, ⟨0,1⟩, ⟨0,1⟩)) (valV3 (⟨0,1⟩, ⟨1,1⟩, ⟨0,1⟩))
      (valV3 (⟨1,1⟩, ⟨0,1⟩, ⟨0,1⟩)) (valV3 (⟨0,1⟩, ⟨0,1⟩, ⟨1,1⟩)) = false := by
  refine ⟨ccwFrac_iff v1 v2 v3 n h1 h2 h3 hn, ?_, by decide, by decide⟩
  intro hzero
  have hiff := ccwFrac_iff v1 v2 v3 n h1 h2 h3 hn
  have hdot : specDot (specCross (specSub (ratsOf v2) (ratsOf v1))
      (specSub (ratsOf v3) (ratsOf v1))) (ratsOf n) = 0 := by
    rw [hzero]
    simp [specDot]
  by_contra hne
  have htrue : is_counterclockwise (valV3 v1) (valV3 v2) (valV3 v3) (valV3 n) = true := by
    revert hne
    cases is_counterclockwise (valV3 v1) (valV3 v2) (valV3 v3) (valV3 n) <;> simp
  have := hiff.1 htrue
  rw [specCCW, hdot] at this
  exact lt_irrefl 0 this

/-- Witness for C4 at the spec's concrete winding test. -/
theorem claim_C4_witness :
    (is_counterclockwise (valV3 (⟨0,1⟩, ⟨0,1⟩, ⟨0,1⟩)) (valV3 (⟨1,1⟩, ⟨0,1⟩, ⟨0,1⟩))
      (valV3 (⟨0,1⟩, ⟨1,1⟩, ⟨0,1⟩)) (valV3 (⟨0,1⟩, ⟨0,1⟩, ⟨1,1⟩)) = true ↔
      specCCW (ratsOf (⟨0,1⟩, ⟨0,1⟩, ⟨0,1⟩)) (ratsOf (⟨1,1⟩, ⟨0,1⟩, ⟨0,1⟩))
        (ratsOf (⟨0,1⟩, ⟨1,1⟩, ⟨0,1⟩)) (ratsOf (⟨0,1⟩, ⟨0,1⟩, ⟨1,1⟩))) ∧
    is_counterclockwise (valV3 (⟨0,1⟩, ⟨0,1⟩, ⟨0,1⟩)) (valV3 (⟨1,1⟩, ⟨0,1⟩, ⟨0,1⟩))
      (valV3 (⟨0,1⟩, ⟨1,1⟩, ⟨0,1⟩)) (valV3 (⟨0,1⟩, ⟨0,1⟩, ⟨1,1⟩)) = true := by
  have h := claim_C4 (⟨0,1⟩, ⟨0,1⟩, ⟨0,1⟩) (⟨1,1⟩, ⟨0,1⟩, ⟨0,1⟩) (⟨0,1⟩, ⟨1,1⟩, ⟨0,1⟩)
    (⟨0,1⟩, ⟨0,1⟩, ⟨1,1⟩) (by decide) (by decide) (by decide) (by decide)
  exact ⟨h.1, h.2.2.1⟩

/-- C10: an empty file, or a file whose only content is the `solid` header
line, drives `get_current_line` past the end of the line list; the resulting
IndexError is not an `STLValidatorException` and escapes `validate_stl_file`
as an unhandled fault instead of producing a fail outcome. -/
theorem claim_C10 : ∀ strict : Bool,
    validate_stl_file strict false "f" (bytesOfString "") freshSt =
      RunOut.crash PyFault.indexError freshSt ∧
    validate_stl_file strict false "f" (bytesOfString "solid x") freshSt =
      RunOut.crash PyFault.indexError ⟨0, 0, 1, []⟩ := by
  intro strict
  cases strict <;> exact ⟨by decide, by decide⟩

/-- C2: the format detector classifies a file as binary exactly when it is at
least 84 bytes long and `80 + 4 + 50 * T` equals the file length for `T` the
little-endian 32-bit value at offset 80; shorter files are textual, and any
file satisfying the equation is dispatched to the binary validator
regardless of its content. -/
theorem claim_C2 (f : List Nat) :
    (is_binary_stl f = true ↔ 84 ≤ f.length ∧ 80 + 4 + 50 * le32At f 80 = f.length) ∧
    (f.length < 84 → is_binary_stl f = false) ∧
    (∀ strict verbose : Bool, is_binary_stl f = true →
      dispatchValidator strict verbose f = validate_binary_stl_file strict verbose f) := by
  refine ⟨?_, ?_, ?_⟩
  · unfold is_binary_stl unpackLE32At
    by_cases h : 80 + 4 ≤ f.length
    · simp only [if_pos h]
      constructor
      · intro ht
        exact ⟨by omega, by simpa using ht⟩
      · intro ⟨_, he⟩
        simpa using he
    · simp only [if_neg h]
      constructor
      · intro ht
        cases ht
      · intro ⟨hl, _⟩
        omega
  · intro hshort
    unfold is_binary_stl unpackLE32At
    rw [if_neg (by omega)]
  · intro strict verbose hbin
    unfold dispatchValidator
    rw [if_pos hbin]

/-- Witness for C2: an 84-byte file with triangle count 0 is binary and is
dispatched to the binary validator; a 19-byte textual file is not binary. -/
theorem claim_C2_witness :
    is_binary_stl (List.replicate 84 0) = true ∧
    dispatchValidator true false (List.replicate 84 0) =
      validate_binary_stl_file true false (List.replicate 84 0) ∧
    is_binary_stl (bytesOfString "solid x\nendsolid x") = false :=
  ⟨by decide,
   (claim_C2 (List.replicate 84 0)).2.2 true false (by decide),
   (claim_C2 (bytesOfString "solid x\nendsolid x")).2.1 (by decide)⟩

/-- 84 bytes declaring one triangle record that is not present: the record
reads run past the end of input. -/
def overrunBytes : List Nat := List.replicate 80 0 ++ [1, 0, 0, 0]

/-- Discriminator: did the computation end in a raised
`STLValidatorException`? -/
def endsInExc : VRes Unit → Bool
  | .exc _ _ => true
  | _ => false

/-- Counterexample to C6: on a file whose declared triangle count implies
records beyond end-of-file, the binary validator ends in an unhandled
`struct.error` fault, not in a raised validation error; no
`unexpected end of input` conversion exists in the code. -/
theorem claim_C6_counterexample :
    validate_binary_stl_file true false overrunBytes freshSt =
      VRes.fault PyFault.structError freshSt ∧
    endsInExc (validate_binary_stl_file true false overrunBytes freshSt) = false := by
  exact ⟨by decide, by decide⟩

/-- C6 (amended): a file whose declared count implies records beyond
end-of-file never satisfies the detector's size equation, so the
orchestrator routes it to the ASCII validator; the binary validator itself,
invoked directly on such input, ends in an unhandled read fault rather than
a converted validation error. -/
theorem claim_C6_amended :
    (∀ f : List Nat, 84 ≤ f.length → f.length < 84 + 50 * le32At f 80 →
      is_binary_stl f = false ∧
      ∀ strict verbose : Bool, dispatchValidator strict verbose f =
        validate_ascii_stl_file strict verbose (linesOfBytes f)) ∧
    validate_binary_stl_file true false overrunBytes freshSt =
      VRes.fault PyFault.structError freshSt := by
  constructor
  · intro f hlen hover
    have hbin : is_binary_stl f = false := by
      unfold is_binary_stl unpackLE32At
      rw [if_pos (by omega)]
      simp only [decide_eq_false_iff_not]
      omega
    refine ⟨hbin, fun strict verbose => ?_⟩
    unfold dispatchValidator
    rw [hbin]
    simp
  · decide

/-- Witness for C6 (amended): the 84-byte one-triangle file is itself routed
to the ASCII validator by the orchestrator. -/
theorem claim_C6_witness :
    is_binary_stl overrunBytes = false ∧
    dispatchValidator true false overrunBytes =
      validate_ascii_stl_file true false (linesOfBytes overrunBytes) := by
  have h := claim_C6_amended.1 overrunBytes (by decide) (by decide)
  exact ⟨h.1, h.2 true false⟩

/-- A 134-byte binary STL file declaring one triangle whose vertices are
wound clockwise: header of 80 zero bytes, triangle count 1, normal
`(0,0,1)`, vertices `(0,0,0)`, `(0,1,0)`, `(1,0,0)`, attribute 0. -/
def cwRecordBytes : List Nat :=
  List.replicate 80 0 ++ [1, 0, 0, 0] ++
  ([0,0,0,0] ++ [0,0,0,0] ++ [0,0,128,63]) ++
  ([0,0,0,0] ++ [0,0,0,0] ++ [0,0,0,0]) ++
  ([0,0,0,0] ++ [0,0,128,63] ++ [0,0,0,0]) ++
  ([0,0,128,63] ++ [0,0,0,0] ++ [0,0,0,0]) ++ [0, 0]

/-- C7: the winding-order diagnostic of the binary validator is reported
through the line-index handler, so it carries `line 1` (the stale global
line index), not the record's byte offset `position 84`; the neighbouring
binary checks do use the byte offset.  This evaluates the code on a
one-record clockwise binary file in both modes. -/
theorem claim_C7_code_bug :
    validate_stl_file true false "f" cwRecordBytes freshSt =
      RunOut.exit 1
        ⟨"fail", "Error on line 1: Vertices of this facet are not ordered counterclockwise.",
          none⟩
        ⟨0, 1, 0, ["Error on line 1: Vertices of this facet are not ordered counterclockwise."]⟩ ∧
    "Error on line 1: Vertices of this facet are not ordered counterclockwise." ≠
      "Error on position 84: Vertices of this facet are not ordered counterclockwise." ∧
    validate_stl_file false true "f" cwRecordBytes freshSt =
      RunOut.exit 0
        ⟨"pass",
          "format=\"STL (Standard Tessellation Language)\"; version=\"binary\"; result=\"errors: 0, warnings: 1\"",
          some "f validates."⟩
        ⟨1, 0, 0, ["Warning on line 1: Vertices of this facet are not ordered counterclockwise."]⟩ := by
  exact ⟨by decide, by decide, by decide⟩

/-- Counterexample to C8: on a passing two-line file the rendered note
separates the counts with a comma (`errors: 0, warnings: 0`), not with the
semicolon the claim states. -/
theorem claim_C8_counterexample :
    validate_stl_file true false "f" (bytesOfString "solid x\nendsolid x") freshSt =
      RunOut.exit 0
        ⟨"pass",
          "format=\"STL (Standard Tessellation Language)\"; version=\"ASCII\"; result=\"errors: 0, warnings: 0\"",
          some "f validates."⟩ ⟨0, 0, 2, []⟩ ∧
    "format=\"STL (Standard Tessellation Language)\"; version=\"ASCII\"; result=\"errors: 0, warnings: 0\"" ≠
    "format=\"STL (Standard Tessellation Language)\"; version=\"ASCII\"; result=\"errors: 0; warnings: 0\"" := by
  exact ⟨by decide, by decide⟩

/-- C8 (amended): on a passing validation the note is
`format="STL (Standard Tessellation Language)"; version="<ASCII|binary>";
result="errors: N, warnings: M"` (comma between the counts) with `N`, `M`
the final counter values, and stdout is the one-line summary; on a failing
validation the note is the raised error's message text and stdout is null. -/
theorem claim_C8_amended (strict verbose : Bool) (path : String) (content : List Nat) (s0 : VSt) :
    (∀ rep s, validate_stl_file strict verbose path content s0 = RunOut.exit 0 rep s →
      rep = ⟨"pass",
        format_event_outcome_detail_note (some "STL (Standard Tessellation Language)")
          (some (if is_binary_stl content then "binary" else "ASCII"))
          (some ("errors: " ++ toString s.errors ++ ", warnings: " ++ toString s.warnings)),
        some (path ++ " validates.")⟩) ∧
    (∀ m s, dispatchValidator strict verbose content s0 = VRes.exc m s →
      validate_stl_file strict verbose path content s0 = RunOut.exit 1 ⟨"fail", m, none⟩ s) ∧
    (∀ code rep s, validate_stl_file strict verbose path content s0 = RunOut.exit code rep s →
      code = 1 → rep.stdout = none ∧ rep.eventOutcomeInformation = "fail") := by
  unfold validate_stl_file
  cases hd : dispatchValidator strict verbose content s0 with
  | ok a s1 =>
    dsimp only
    by_cases he : s1.errors > 0
    · simp only [he, if_true]
      refine ⟨?_, ?_, ?_⟩
      · intro rep s heq
        simp only [RunOut.exit.injEq] at heq
        exact absurd heq.1 (by decide)
      · intro m s heq
        cases heq
      · intro code rep s heq _
        simp only [RunOut.exit.injEq] at heq
        obtain ⟨_, hrep, _⟩ := heq
        subst hrep
        exact ⟨rfl, rfl⟩
    · simp only [he, if_false]
      refine ⟨?_, ?_, ?_⟩
      · intro rep s heq
        simp only [RunOut.exit.injEq] at heq
        obtain ⟨_, hrep, hs⟩ := heq
        subst hrep
        subst hs
        rfl
      · intro m s heq
        cases heq
      · intro code rep s heq hcode
        simp only [RunOut.exit.injEq] at heq
        omega
  | exc m s1 =>
    dsimp only
    refine ⟨?_, ?_, ?_⟩
    · intro rep s heq
      simp only [RunOut.exit.injEq] at heq
      exact absurd heq.1 (by decide)
    · intro m2 s2 heq
      simp only [VRes.exc.injEq] at heq
      obtain ⟨hm, hs⟩ := heq
      subst hm
      subst hs
      rfl
    · intro code rep s heq _
      simp only [RunOut.exit.injEq] at heq
      obtain ⟨_, hrep, _⟩ := heq
      subst hrep
      exact ⟨rfl, rfl⟩
  | fault e s1 =>
    dsimp only
    refine ⟨?_, ?_, ?_⟩
    · intro rep s heq
      cases heq
    · intro m s heq
      cases heq
    · intro code rep s heq _
      cases heq

/-- Witness for C8 (amended), at the passing two-line file. -/
theorem claim_C8_witness :
    (⟨"pass",
      "format=\"STL (Standard Tessellation Language)\"; version=\"ASCII\"; result=\"errors: 0, warnings: 0\"",
      some "f validates."⟩ : Report) =
    ⟨"pass",
      format_event_outcome_detail_note (some "STL (Standard Tessellation Language)")
        (some (if is_binary_stl (bytesOfString "solid x\nendsolid x") then "binary" else "ASCII"))
        (some ("errors: " ++ toString (0 : Nat) ++ ", warnings: " ++ toString (0 : Nat))),
      some ("f" ++ " validates.")⟩ :=
  (claim_C8_amended true false "f" (bytesOfString "solid x\nendsolid x") freshSt).1
    ⟨"pass",
      "format=\"STL (Standard Tessellation Language)\"; version=\"ASCII\"; result=\"errors: 0, warnings: 0\"",
      some "f validates."⟩ ⟨0, 0, 2, []⟩ (by decide)

/-- A ten-non-blank-line file: a header, one complete well-formed facet, one
junk line, and a footer.  Ten lines are not of the form `2 + 7k`. -/
def junkLines : List String :=
  ["solid x", "facet normal 0 0 1", "outer loop", "vertex 0 0 0", "vertex 1 0 0",
   "vertex 0 1 0", "endloop", "endfacet", "junk", "endsolid x"]

/-- Counterexample to C5: a file whose only non-blank line is the `solid`
header scans 0 facet iterations, while `floor((1 - 2) / 7) = -1`; Python's
`range` of a negative count is empty, so the two disagree. -/
theorem claim_C5_counterexample :
    ¬ ((facetIterations ["solid x"] : Int) =
       ((countNonBlank (["solid x"].map normalizeLine) : Int) - 2).fdiv 7) := by
  decide

/-- C5 (amended): the ASCII validator scans
`max(0, floor((non-blank line count - 2) / 7))` facet iterations (`range`
clamps the negative values arising for fewer than two non-blank lines); the
count is derived solely from the non-blank line total, and a line total not
of the form `2 + 7k` shifts the scan silently: the ten-line `junkLines` file
scans one facet and then fails with an ordinary `endsolid` grammar error on
the junk line, not with a dedicated structural error about the line count. -/
theorem claim_C5_amended :
    (∀ raw : List String, (facetIterations raw : Int) =
      max (((countNonBlank (raw.map normalizeLine) : Int) - 2).fdiv 7) 0) ∧
    (∀ r1 r2 : List String,
      countNonBlank (r1.map normalizeLine) = countNonBlank (r2.map normalizeLine) →
      facetIterations r1 = facetIterations r2) ∧
    facetIterations junkLines = 1 ∧
    validate_ascii_stl_file true false junkLines freshSt =
      VRes.exc ("Error on line 9: Expected " ++ quo ++ "endsolid" ++ quo ++ " but got " ++
          quo ++ "junk" ++ quo ++ ".")
        ⟨0, 1, 8, ["Error on line 9: Expected " ++ quo ++ "endsolid" ++ quo ++ " but got " ++
          quo ++ "junk" ++ quo ++ "."]⟩ := by
  refine ⟨?_, ?_, by decide, by decide⟩
  · intro raw
    unfold facetIterations total_facet_count
    rw [Int.toNat_eq_max]
  · intro r1 r2 hcount
    unfold facetIterations total_facet_count
    rw [hcount]

/-- Witness for C5 (amended): two files with equal non-blank totals scan the
same number of facets. -/
theorem claim_C5_witness :
    facetIterations ["solid a", "x"] = facetIterations ["solid b", "y"] ∧
    (facetIterations ["solid x"] : Int) =
      max (((countNonBlank (["solid x"].map normalizeLine) : Int) - 2).fdiv 7) 0 :=
  ⟨claim_C5_amended.2.1 ["solid a", "x"] ["solid b", "y"] (by decide),
   claim_C5_amended.1 ["solid x"]⟩

/-- The final global state carried by a validator outcome. -/
def stateOf {α : Type} : VRes α → VSt
  | .ok _ s => s
  | .exc _ s => s
  | .fault _ s => s

/-- Normal `(0,0,1)` as a vector of finite floats. -/
def nrmV : V3 := ⟨.val ⟨0,1⟩, .val ⟨0,1⟩, .val ⟨1,1⟩⟩

/-- Vertex `(-1,-1,0)`. -/
def negA : V3 := ⟨.val ⟨-1,1⟩, .val ⟨-1,1⟩, .val ⟨0,1⟩⟩

/-- Vertex `(1,-1,0)`. -/
def negB : V3 := ⟨.val ⟨1,1⟩, .val ⟨-1,1⟩, .val ⟨0,1⟩⟩

/-- Vertex `(0,1,0)`. -/
def negC : V3 := ⟨.val ⟨0,1⟩, .val ⟨1,1⟩, .val ⟨0,1⟩⟩

/-- A normal with a NaN component. -/
def nanN : V3 := ⟨.nan, .val ⟨0,1⟩, .val ⟨0,1⟩⟩

/-- The zero vertex. -/
def zeroV : V3 := ⟨.val ⟨0,1⟩, .val ⟨0,1⟩, .val ⟨0,1⟩⟩

/-- C1: the soft-violation severity `WARNING or strict_mode` equals
`strict_mode`; under `ERROR` both handlers bump the error counter and raise,
under `WARNING` they bump the warning counter and return; a NaN coordinate
and a non-zero attribute field make the binary record checks raise in both
modes; the ASCII `endsolid` mismatch and the binary negative-vertex check
raise in strict mode and merely count a warning in tolerant mode. -/
theorem claim_C1 (strict verbose : Bool) (expected : String) (got : Option String)
    (pos : Nat) (s : VSt) (i : Nat) (n v1 v2 v3 : V3) (attr : Nat) :
    ((pyWARNING || strict) = strict) ∧
    (handle_error_with_line_index verbose pyERROR expected got s =
      VRes.exc (renderMsg "Error" ("line " ++ toString (s.lineIdx + 1)) expected got)
        (errorSt ("line " ++ toString (s.lineIdx + 1)) expected got s)) ∧
    ((errorSt ("line " ++ toString (s.lineIdx + 1)) expected got s).errors = s.errors + 1) ∧
    (handle_error_with_line_index verbose pyWARNING expected got s =
      VRes.ok () (warnSt verbose ("line " ++ toString (s.lineIdx + 1)) expected got s)) ∧
    ((warnSt verbose ("line " ++ toString (s.lineIdx + 1)) expected got s).warnings =
      s.warnings + 1) ∧
    (handle_error_with_file_pos verbose pyERROR pos expected got s =
      VRes.exc (renderMsg "Error" ("position " ++ toString pos) expected got)
        (errorSt ("position " ++ toString pos) expected got s)) ∧
    (handle_error_with_file_pos verbose pyWARNING pos expected got s =
      VRes.ok () (warnSt verbose ("position " ++ toString pos) expected got s)) ∧
    (anyNaN n v1 v2 v3 = true →
      endsInExc (processRecord strict verbose i n v1 v2 v3 attr s) = true ∧
      (stateOf (processRecord strict verbose i n v1 v2 v3 attr s)).errors = s.errors + 1) ∧
    (attr ≠ 0 →
      endsInExc (processRecord strict verbose i n v1 v2 v3 attr s) = true ∧
      (stateOf (processRecord strict verbose i n v1 v2 v3 attr s)).errors = s.errors + 1) ∧
    (∀ st : Bool, validate_ascii_stl_file st false ["solid x", "endsolid y"] freshSt =
      if st then
        VRes.exc ("Error on line 2: Expected " ++ quo ++ "endsolid x" ++ quo ++ " but got " ++
            quo ++ "endsolid y" ++ quo ++ ".")
          ⟨0, 1, 1, ["Error on line 2: Expected " ++ quo ++ "endsolid x" ++ quo ++ " but got " ++
            quo ++ "endsolid y" ++ quo ++ "."]⟩
      else VRes.ok () ⟨1, 0, 2, []⟩) ∧
    (∀ st : Bool, processRecord st false 0 nrmV negA negB negC 0 freshSt =
      if st then
        VRes.exc ("Error on position 84: Not all vertices of this facet have positive values.")
          ⟨0, 1, 0, ["Error on position 84: Not all vertices of this facet have positive values."]⟩
      else VRes.ok () ⟨1, 0, 0, []⟩) := by
  refine ⟨Bool.false_or strict, rfl, by simp [errorSt], rfl, by simp [warnSt], rfl, rfl,
    ?_, ?_, ?_, ?_⟩
  · intro hnan
    cases strict <;>
      cases hneg : anyNegCoord v1 v2 v3 <;>
        cases hccw : is_counterclockwise v1 v2 v3 n <;>
          constructor <;>
            simp [processRecord, run_bind, run_pure, mBind, handle_error_with_file_pos,
              handle_error_with_line_index, pyERROR, pyWARNING, hneg, hccw, hnan, endsInExc,
              stateOf, errorSt, warnSt]
  · intro hattr
    cases strict <;>
      cases hneg : anyNegCoord v1 v2 v3 <;>
        cases hccw : is_counterclockwise v1 v2 v3 n <;>
          cases hnan : anyNaN n v1 v2 v3 <;>
            constructor <;>
              simp [processRecord, run_bind, run_pure, mBind, handle_error_with_file_pos,
                handle_error_with_line_index, pyERROR, pyWARNING, hneg, hccw, hnan, hattr,
                endsInExc, stateOf, errorSt, warnSt]
  · intro st
    cases st <;> decide
  · intro st
    cases st <;> decide

/-- Witness for C1: a record whose normal has a NaN component raises even in
tolerant mode, with the error counter bumped. -/
theorem claim_C1_witness :
    endsInExc (processRecord false false 0 nanN zeroV zeroV zeroV 0 freshSt) = true ∧
    (stateOf (processRecord false false 0 nanN zeroV zeroV zeroV 0 freshSt)).errors =
      freshSt.errors + 1 :=
  (claim_C1 false false "" none 0 freshSt 0 nanN zeroV zeroV zeroV 0).2.2.2.2.2.2.2.1
    (by decide)

/-! ### Well-formed ASCII files, as line data -/

/-- The variable lines of one facet block together with their parsed numeric
values. -/
structure FacetB where
  nLine : String
  vLine1 : String
  vLine2 : String
  vLine3 : String
  nVal : Frac × Frac × Frac
  v1Val : Frac × Frac × Frac
  v2Val : Frac × Frac × Frac
  v3Val : Frac × Frac × Frac

/-- The seven grammar lines of a facet block. -/
def blockLines (b : FacetB) : List String :=
  [b.nLine, "outer loop", b.vLine1, b.vLine2, b.vLine3, "endloop", "endfacet"]

/-- Well-formedness of one facet block: all four variable lines match their
patterns, parse to the stated values, all nine vertex coordinates are
non-negative, and the facet is counterclockwise for its stated normal. -/
def blockOK (b : FacetB) : Bool :=
  matchFacetLine b.nLine &&
  matchVertexLine b.vLine1 && matchVertexLine b.vLine2 && matchVertexLine b.vLine3 &&
  decide (floats3 ((pySplit b.nLine).drop 2) = some b.nVal) &&
  decide (floats3 ((pySplit b.vLine1).drop 1) = some b.v1Val) &&
  decide (floats3 ((pySplit b.vLine2).drop 1) = some b.v2Val) &&
  decide (floats3 ((pySplit b.vLine3).drop 1) = some b.v3Val) &&
  !fLt0 b.v1Val.1 && !fLt0 b.v1Val.2.1 && !fLt0 b.v1Val.2.2 &&
  !fLt0 b.v2Val.1 && !fLt0 b.v2Val.2.1 && !fLt0 b.v2Val.2.2 &&
  !fLt0 b.v3Val.1 && !fLt0 b.v3Val.2.1 && !fLt0 b.v3Val.2.2 &&
  is_counterclockwise (valV3 b.v1Val) (valV3 b.v2Val) (valV3 b.v3Val) (valV3 b.nVal)

/-- The line sequence of a well-formed file: header, facet blocks, footer;
an empty name stands for the bare `solid` / `endsolid` form. -/
def asciiLines (name : String) (fs : List FacetB) : List String :=
  (if name = "" then "solid" else "solid " ++ name) ::
    (fs.flatMap blockLines ++ [if name = "" then "endsolid" else "endsolid " ++ name])

/-- A solid name as the normalised header line carries it: empty, or
starting with a non-space character and containing no newline. -/
def goodName (name : String) : Bool :=
  name == "" ||
    (!pyIsSpace (name.data.headD 'a') && name.data.all (fun c => !(c = Char.ofNat 10)))

/-! ### Helper lemmas for running the ASCII validator -/

/-- A successful `floats3` means no token failed to convert. -/
theorem floats3_contains (toks : List String) (t : Frac × Frac × Frac)
    (h : floats3 toks = some t) : (toks.map pyFloatOfToken).contains none = false := by
  unfold floats3 at h
  split at h
  · next a b c heq =>
    rw [heq]
    rfl
  · cases h

/-- Running `parseFloats` on tokens that convert to the triple `t`. -/
theorem parseFloats_eval (toks : List String) (t : Frac × Frac × Frac)
    (h : floats3 toks = some t) (s : VSt) :
    parseFloats toks s = VRes.ok ⟨.val t.1, .val t.2.1, .val t.2.2⟩ s := by
  obtain ⟨a, b, c⟩ := t
  unfold parseFloats
  rw [floats3_contains toks (a, b, c) h, h]
  rfl

/-- Sequencing after a component that returns normally. -/
theorem bind_ok {α β : Type} (x : M α) (f : α → M β) {s s1 : VSt} {a : α}
    (h : x s = VRes.ok a s1) : (x >>= f) s = f a s1 := by
  rw [run_bind, h]

/-- The head of the dropped suffix is the element at the cursor. -/
theorem get?_of_drop {α : Type} (l : List α) (i : Nat) (x : α) (xs : List α)
    (h : l.drop i = x :: xs) : l.get? i = some x := by
  induction l generalizing i with
  | nil => simp at h
  | cons y ys ih =>
    cases i with
    | zero =>
      simp at h
      simp [h.1]
    | succ j =>
      simp only [List.drop_succ_cons] at h
      simpa using ih j h

/-- Advancing the cursor into the dropped suffix. -/
theorem drop_succ_of_drop {α : Type} (l : List α) (i : Nat) (x : α) (xs : List α)
    (h : l.drop i = x :: xs) : l.drop (i + 1) = xs := by
  rw [← List.tail_drop, h]
  rfl

/-- `getD` through a known dropped suffix. -/
theorem getD_of_drop (l : List String) (i : Nat) (x : String) (xs : List String)
    (h : l.drop i = x :: xs) : l.getD i "" = x := by
  have hg := get?_of_drop l i x xs h
  rw [List.get?_eq_getElem?] at hg
  simp [List.getD, hg]

/-- The blank-line skip does nothing when the current line is non-blank. -/
theorem skipGo_id (lines : List String) (verbose : Bool) (fuel : Nat) (s : VSt)
    (h : ¬ pyStrip (lines.getD s.lineIdx "") = "") :
    skipGo lines verbose fuel s = s := by
  cases fuel with
  | zero => rfl
  | succ k =>
    unfold skipGo
    rw [if_neg (fun hc => h hc.2)]

/-- The blank-line skip does nothing at or past the final line. -/
theorem skipGo_oob (lines : List String) (verbose : Bool) (fuel : Nat) (s : VSt)
    (h : lines.length ≤ s.lineIdx + 1) :
    skipGo lines verbose fuel s = s := by
  cases fuel with
  | zero => rfl
  | succ k =>
    unfold skipGo
    rw [if_neg (fun hc => absurd hc.1 (by omega))]

/-- A string whose first character is not whitespace does not strip to
empty. -/
theorem pyStrip_ne_of_head (s : String) (c : Char) (r : List Char)
    (hd : s.data = c :: r) (hc : pyIsSpace c = false) : ¬ pyStrip s = "" := by
  intro heq
  have hdata : (pyStrip s).data = [] := by rw [heq]
  unfold pyStrip stripChars at hdata
  rw [hd, List.dropWhile_cons_of_neg (by simp [hc])] at hdata
  simp only [List.reverse_eq_nil_iff] at hdata
  rw [List.dropWhile_eq_nil_iff] at hdata
  have hmem : c ∈ (c :: r).reverse := by simp
  have := hdata c hmem
  rw [hc] at this
  cases this

/-- Consuming a literal leading word. -/
theorem dropBegins_append (kw r : List Char) : dropBegins (kw ++ r) kw = some r := by
  induction kw with
  | nil => simp [dropBegins]
  | cons k ks ih => simp [dropBegins, ih]

/-- A successful `dropBegins` exhibits the split. -/
theorem dropBegins_some (l kw r : List Char) (h : dropBegins l kw = some r) :
    l = kw ++ r := by
  induction kw generalizing l with
  | nil =>
    simp only [dropBegins] at h
    cases h
    simp
  | cons k ks ih =>
    cases l with
    | nil => cases h
    | cons c l2 =>
      unfold dropBegins at h
      split at h
      · next hck =>
        rw [hck, ih l2 h]
        rfl
      · cases h

/-- A line matching one of the triple patterns starts with the keyword. -/
theorem matchTriple_begins (kw : List Char) (l : String) (h : matchTriple kw l.data = true) :
    ∃ r, l.data = kw ++ r := by
  unfold matchTriple at h
  split at h
  · cases h
  · next r0 heq => exact ⟨r0, dropBegins_some l.data kw r0 heq⟩

theorem readVertex_run (strict verbose : Bool) (L : List String) (l : String)
    (t : Frac × Frac × Frac) (i w e : Nat) (p : List String)
    (hcur : L.get? i = some l)
    (hmatch : matchVertexLine l = true)
    (hparse : floats3 ((pySplit l).drop 1) = some t)
    (hneg1 : fLt0 t.1 = false) (hneg2 : fLt0 t.2.1 = false) (hneg3 : fLt0 t.2.2 = false)
    (hnext : ¬ pyStrip (L.getD (i + 1) "") = "") :
    readVertex strict verbose L ⟨w, e, i, p⟩ =
      VRes.ok ⟨.val t.1, .val t.2.1, .val t.2.2⟩ ⟨w, e, i + 1, p⟩ := by
  unfold readVertex
  simp only [run_bind, get_current_line, hcur, hmatch, Bool.not_true, Bool.false_eq_true,
    if_false, run_pure, parseFloats_eval _ _ hparse, go_to_next_line,
    skipGo_id L verbose _ ⟨w, e, i + 1, p⟩ hnext, pfLt0, hneg1, hneg2, hneg3,
    Bool.or_self, Bool.or_false, Bool.false_or]

theorem nonblank_of_matchVertex (l : String) (h : matchVertexLine l = true) :
    ¬ pyStrip l = "" := by
  obtain ⟨r, hr⟩ := matchTriple_begins _ l h
  exact pyStrip_ne_of_head l 'v' (("ertex ").data ++ r) (by rw [hr]; rfl) (by decide)

theorem nonblank_of_matchFacet (l : String) (h : matchFacetLine l = true) :
    ¬ pyStrip l = "" := by
  obtain ⟨r, hr⟩ := matchTriple_begins _ l h
  exact pyStrip_ne_of_head l 'f' (("acet normal ").data ++ r) (by rw [hr]; rfl) (by decide)

theorem facet_run (strict verbose : Bool) (L : List String) (b : FacetB)
    (rest : List String) (i w e : Nat) (p : List String)
    (hOK : blockOK b = true)
    (hdrop : L.drop i = blockLines b ++ rest)
    (hrest : ¬ pyStrip (rest.headD "") = "") :
    validateFacet strict verbose L ⟨w, e, i, p⟩ = VRes.ok () ⟨w, e, i + 7, p⟩ := by
  simp only [blockOK, Bool.and_eq_true, decide_eq_true_eq, Bool.not_eq_true'] at hOK
  obtain ⟨⟨⟨⟨⟨⟨⟨⟨⟨⟨⟨⟨⟨⟨⟨⟨⟨hm, hv1⟩, hv2⟩, hv3⟩, hpn⟩, hp1⟩, hp2⟩, hp3⟩, h11⟩, h12⟩,
    h13⟩, h21⟩, h22⟩, h23⟩, h31⟩, h32⟩, h33⟩, hccw⟩ := hOK
  have d0 : L.drop i = b.nLine :: "outer loop" :: b.vLine1 :: b.vLine2 :: b.vLine3 ::
      "endloop" :: "endfacet" :: rest := by simpa [blockLines] using hdrop
  have g0 : L.get? i = some b.nLine := get?_of_drop _ _ _ _ d0
  have d1 : L.drop (i + 1) = "outer loop" :: b.vLine1 :: b.vLine2 :: b.vLine3 ::
      "endloop" :: "endfacet" :: rest := drop_succ_of_drop _ _ _ _ d0
  have g1 : L.get? (i + 1) = some "outer loop" := get?_of_drop _ _ _ _ d1
  have gd1 : L.getD (i + 1) "" = "outer loop" := getD_of_drop _ _ _ _ d1
  have d2 : L.drop (i + 2) = b.vLine1 :: b.vLine2 :: b.vLine3 ::
      "endloop" :: "endfacet" :: rest := drop_succ_of_drop _ _ _ _ d1
  have g2 : L.get? (i + 2) = some b.vLine1 := get?_of_drop _ _ _ _ d2
  have gd2 : L.getD (i + 2) "" = b.vLine1 := getD_of_drop _ _ _ _ d2
  have d3 : L.drop (i + 3) = b.vLine2 :: b.vLine3 :: "endloop" :: "endfacet" :: rest :=
    drop_succ_of_drop _ _ _ _ d2
  have g3 : L.get? (i + 3) = some b.vLine2 := get?_of_drop _ _ _ _ d3
  have gd3 : L.getD (i + 3) "" = b.vLine2 := getD_of_drop _ _ _ _ d3
  have d4 : L.drop (i + 4) = b.vLine3 :: "endloop" :: "endfacet" :: rest :=
    drop_succ_of_drop _ _ _ _ d3
  have g4 : L.get? (i + 4) = some b.vLine3 := get?_of_drop _ _ _ _ d4
  have gd4 : L.getD (i + 4) "" = b.vLine3 := getD_of_drop _ _ _ _ d4
  have d5 : L.drop (i + 5) = "endloop" :: "endfacet" :: rest := drop_succ_of_drop _ _ _ _ d4
  have g5 : L.get? (i + 5) = some "endloop" := get?_of_drop _ _ _ _ d5
  have gd5 : L.getD (i + 5) "" = "endloop" := getD_of_drop _ _ _ _ d5
  have d6 : L.drop (i + 6) = "endfacet" :: rest := drop_succ_of_drop _ _ _ _ d5
  have g6 : L.get? (i + 6) = some "endfacet" := get?_of_drop _ _ _ _ d6
  have gd6 : L.getD (i + 6) "" = "endfacet" := getD_of_drop _ _ _ _ d6
  have d7 : L.drop (i + 7) = rest := drop_succ_of_drop _ _ _ _ d6
  have hnb1 : ¬ pyStrip (L.getD (i + 1) "") = "" := by rw [gd1]; decide
  have hnb2 : ¬ pyStrip (L.getD (i + 2) "") = "" := by
    rw [gd2]; exact nonblank_of_matchVertex _ hv1
  have hnb3 : ¬ pyStrip (L.getD (i + 3) "") = "" := by
    rw [gd3]; exact nonblank_of_matchVertex _ hv2
  have hnb4 : ¬ pyStrip (L.getD (i + 4) "") = "" := by
    rw [gd4]; exact nonblank_of_matchVertex _ hv3
  have hnb5 : ¬ pyStrip (L.getD (i + 5) "") = "" := by rw [gd5]; decide
  have hnb6 : ¬ pyStrip (L.getD (i + 6) "") = "" := by rw [gd6]; decide
  have hnb7 : ¬ pyStrip (L.getD (i + 7) "") = "" := by
    cases rest with
    | nil => exact absurd (by decide) hrest
    | cons r0 rr =>
      rw [getD_of_drop _ _ _ _ d7]
      simp only [List.headD_cons] at hrest
      exact hrest
  have hrv1 : readVertex strict verbose L ⟨w, e, i + 2, p⟩ =
      VRes.ok ⟨.val b.v1Val.1, .val b.v1Val.2.1, .val b.v1Val.2.2⟩ ⟨w, e, i + 3, p⟩ :=
    readVertex_run strict verbose L b.vLine1 b.v1Val (i + 2) w e p g2 hv1 hp1 h11 h12 h13 hnb3
  have hrv2 : readVertex strict verbose L ⟨w, e, i + 3, p⟩ =
      VRes.ok ⟨.val b.v2Val.1, .val b.v2Val.2.1, .val b.v2Val.2.2⟩ ⟨w, e, i + 4, p⟩ :=
    readVertex_run strict verbose L b.vLine2 b.v2Val (i + 3) w e p g3 hv2 hp2 h21 h22 h23 hnb4
  have hrv3 : readVertex strict verbose L ⟨w, e, i + 4, p⟩ =
      VRes.ok ⟨.val b.v3Val.1, .val b.v3Val.2.1, .val b.v3Val.2.2⟩ ⟨w, e, i + 5, p⟩ :=
    readVertex_run strict verbose L b.vLine3 b.v3Val (i + 4) w e p g4 hv3 hp3 h31 h32 h33 hnb5
  simp only [valV3] at hccw
  unfold validateFacet
  simp only [run_bind, get_current_line, g0, g1, g5, g6, hm, Bool.not_true, Bool.false_eq_true,
    if_false, run_pure, parseFloats_eval _ _ hpn, go_to_next_line,
    skipGo_id L verbose _ ⟨w, e, i + 1, p⟩ hnb1,
    skipGo_id L verbose _ ⟨w, e, i + 2, p⟩ hnb2,
    skipGo_id L verbose _ ⟨w, e, i + 5, p⟩ hnb5,
    skipGo_id L verbose _ ⟨w, e, i + 6, p⟩ hnb6,
    skipGo_id L verbose _ ⟨w, e, i + 7, p⟩ hnb7,
    hrv1, hrv2, hrv3, hccw, decide_True, decide_False]

theorem blocksNonblankHead (fs : List FacetB) (rest : List String)
    (hfs : ∀ b ∈ fs, blockOK b = true) (hrest : ¬ pyStrip (rest.headD "") = "") :
    ¬ pyStrip ((fs.flatMap blockLines ++ rest).headD "") = "" := by
  cases fs with
  | nil => simpa using hrest
  | cons b bs =>
    have hb := hfs b (by simp)
    simp only [blockOK, Bool.and_eq_true] at hb
    have hm : matchFacetLine b.nLine = true :=
      hb.1.1.1.1.1.1.1.1.1.1.1.1.1.1.1.1.1
    have hhead : ((b :: bs).flatMap blockLines ++ rest).headD "" = b.nLine := by
      simp [blockLines]
    rw [hhead]
    exact nonblank_of_matchFacet _ hm

theorem facetLoop_run (strict verbose : Bool) (L : List String) (fs : List FacetB)
    (rest : List String) (i w e : Nat) (p : List String)
    (hfs : ∀ b ∈ fs, blockOK b = true)
    (hdrop : L.drop i = fs.flatMap blockLines ++ rest)
    (hrest : ¬ pyStrip (rest.headD "") = "") :
    facetLoop strict verbose L fs.length ⟨w, e, i, p⟩ =
      VRes.ok () ⟨w, e, i + 7 * fs.length, p⟩ := by
  induction fs generalizing i with
  | nil => simp [facetLoop, run_pure]
  | cons b bs ih =>
    have hb := hfs b (by simp)
    have hbs : ∀ x ∈ bs, blockOK x = true := fun x hx => hfs x (by simp [hx])
    have hdropb : L.drop i = blockLines b ++ (bs.flatMap blockLines ++ rest) := by
      simpa [List.flatMap_cons, List.append_assoc] using hdrop
    have hnext : ¬ pyStrip ((bs.flatMap blockLines ++ rest).headD "") = "" :=
      blocksNonblankHead bs rest hbs hrest
    have hfr := facet_run strict verbose L b (bs.flatMap blockLines ++ rest) i w e p hb
      hdropb hnext
    have hdrop7 : L.drop (i + 7) = bs.flatMap blockLines ++ rest := by
      have h7 : L.drop (i + 7) = (L.drop i).drop 7 := by
        rw [List.drop_drop]
      rw [h7, hdropb]
      have hdl := List.drop_left (blockLines b) (bs.flatMap blockLines ++ rest)
      simp only [blockLines, List.length_cons, List.length_nil] at hdl
      exact hdl
    have hloop := ih (i + 7) hbs hdrop7
    show (validateFacet strict verbose L >>= fun _ => facetLoop strict verbose L bs.length)
      ⟨w, e, i, p⟩ = _
    rw [bind_ok _ _ hfr, hloop]
    simp only [List.length_cons, VRes.ok.injEq, VSt.mk.injEq, and_true, true_and]
    omega

theorem blocks_length (fs : List FacetB) : (fs.flatMap blockLines).length = 7 * fs.length := by
  induction fs with
  | nil => rfl
  | cons b bs ih =>
    simp only [List.flatMap_cons, List.length_append, ih, blockLines, List.length_cons,
      List.length_nil]
    omega

theorem getD_headD_of_drop (l : List String) (i : Nat) (r : List String)
    (h : l.drop i = r) : l.getD i "" = r.headD "" := by
  cases r with
  | nil =>
    have hlen : l.length ≤ i := by
      have hc := congrArg List.length h
      simp only [List.length_drop, List.length_nil] at hc
      omega
    simp [List.getD, List.getElem?_eq_none hlen]
  | cons x xs =>
    simp only [List.headD_cons]
    exact getD_of_drop l i x xs h

theorem nonblank_solid_name (name : String) : ¬ pyStrip ("solid " ++ name) = "" :=
  pyStrip_ne_of_head _ 's' (("olid ").data ++ name.data) rfl (by decide)

theorem nonblank_endsolid_name (name : String) : ¬ pyStrip ("endsolid " ++ name) = "" :=
  pyStrip_ne_of_head _ 'e' (("ndsolid ").data ++ name.data) rfl (by decide)

/-- Every line of a well-formed file is non-blank. -/
theorem ascii_all_nonblank (name : String) (fs : List FacetB)
    (hfs : ∀ b ∈ fs, blockOK b = true) :
    ∀ l ∈ asciiLines name fs, ¬ pyStrip l = "" := by
  intro l hl
  simp only [asciiLines, List.mem_cons, List.mem_append, List.mem_flatMap,
    List.mem_singleton, List.not_mem_nil, or_false] at hl
  rcases hl with hl | ⟨b, hb, hl⟩ | hl
  · subst hl
    by_cases hn : name = ""
    · rw [if_pos hn]
      decide
    · rw [if_neg hn]
      exact nonblank_solid_name name
  · have hok := hfs b hb
    simp only [blockOK, Bool.and_eq_true] at hok
    have hm : matchFacetLine b.nLine = true := hok.1.1.1.1.1.1.1.1.1.1.1.1.1.1.1.1.1
    have hv1 : matchVertexLine b.vLine1 = true := hok.1.1.1.1.1.1.1.1.1.1.1.1.1.1.1.1.2
    have hv2 : matchVertexLine b.vLine2 = true := hok.1.1.1.1.1.1.1.1.1.1.1.1.1.1.1.2
    have hv3 : matchVertexLine b.vLine3 = true := hok.1.1.1.1.1.1.1.1.1.1.1.1.1.1.2
    simp only [blockLines, List.mem_cons, List.not_mem_nil, or_false] at hl
    rcases hl with hl | hl | hl | hl | hl | hl | hl <;> subst hl
    · exact nonblank_of_matchFacet _ hm
    · decide
    · exact nonblank_of_matchVertex _ hv1
    · exact nonblank_of_matchVertex _ hv2
    · exact nonblank_of_matchVertex _ hv3
    · decide
    · decide
  · subst hl
    by_cases hn : name = ""
    · rw [if_pos hn]
      decide
    · rw [if_neg hn]
      exact nonblank_endsolid_name name

/-- The non-blank line count of a well-formed file. -/
theorem countNonBlank_ascii (name : String) (fs : List FacetB)
    (hfs : ∀ b ∈ fs, blockOK b = true) :
    countNonBlank (asciiLines name fs) = 2 + 7 * fs.length := by
  have hall := ascii_all_nonblank name fs hfs
  unfold countNonBlank
  have hfilter : (asciiLines name fs).filter (fun l => !(pyStrip l == "")) =
      asciiLines name fs := by
    rw [List.filter_eq_self]
    intro a ha
    have := hall a ha
    simpa [beq_iff_eq] using this
  rw [hfilter]
  simp only [asciiLines, List.length_cons, List.length_append, blocks_length,
    List.length_nil]
  omega

/-- The facet-iteration count of a well-formed file. -/
theorem tfc_ascii (name : String) (fs : List FacetB)
    (hfs : ∀ b ∈ fs, blockOK b = true) :
    (total_facet_count (asciiLines name fs)).toNat = fs.length := by
  unfold total_facet_count
  rw [countNonBlank_ascii name fs hfs]
  have : ((2 + 7 * fs.length : Nat) : Int) - 2 = 7 * (fs.length : Int) := by push_cast; ring
  rw [this, Int.mul_fdiv_cancel_left _ (by decide)]
  simp

theorem strBegins_solid (name : String) : strBegins ("solid " ++ name) "solid" = true := by
  unfold strBegins
  have hdata : ("solid " ++ name).data = ("solid").data ++ (' ' :: name.data) := rfl
  rw [hdata, dropBegins_append]
  rfl

theorem strBegins_endsolid (name : String) :
    strBegins ("endsolid " ++ name) "endsolid" = true := by
  unfold strBegins
  have hdata : ("endsolid " ++ name).data = ("endsolid").data ++ (' ' :: name.data) := rfl
  rw [hdata, dropBegins_append]
  rfl

theorem matchSolidHeader_true (name : String) (hne : name ≠ "")
    (hnl : name.data.all (fun c => !(c = Char.ofNat 10)) = true) :
    matchSolidHeader ("solid " ++ name) = true := by
  unfold matchSolidHeader
  have hdata : ("solid " ++ name).data = ("solid ").data ++ name.data := rfl
  rw [hdata, dropBegins_append]
  have hd : name.data ≠ [] := by
    intro hd
    apply hne
    cases name
    exact congrArg String.mk hd
  simp [List.isEmpty_iff, hd, hnl]

theorem solidName_eval (name : String)
    (hhead : pyIsSpace (name.data.headD 'a') = false) :
    pyLstrip (strDrop ("solid " ++ name) 6) = name := by
  unfold strDrop pyLstrip
  have hdata : ("solid " ++ name).data = ("solid ").data ++ name.data := rfl
  rw [hdata]
  have hdl : (("solid ").data ++ name.data).drop 6 = name.data := by
    have hd6 := List.drop_left (("solid ").data) name.data
    exact hd6
  rw [hdl]
  cases hnd : name.data with
  | nil =>
    cases name
    simp at hnd
    simp [hnd]
  | cons c r =>
    have hc : pyIsSpace c = false := by
      rw [hnd] at hhead
      simpa using hhead
    rw [List.dropWhile_cons_of_neg (by simp [hc]), ← hnd]

theorem ascii_run (strict : Bool) (name : String) (fs : List FacetB) (w e : Nat)
    (p : List String)
    (hname : goodName name = true) (hfs : ∀ b ∈ fs, blockOK b = true) :
    asciiBody strict false (asciiLines name fs) ⟨w, e, 0, p⟩ =
      VRes.ok () ⟨w + (if name = "" then 1 else 0), e, 2 + 7 * fs.length, p⟩ := by
  by_cases hn : name = ""
  · subst hn
    have hL : asciiLines "" fs = "solid" :: (fs.flatMap blockLines ++ ["endsolid"]) := by
      simp [asciiLines]
    rw [hL, if_pos rfl]
    have hd1 : ("solid" :: (fs.flatMap blockLines ++ ["endsolid"])).drop 1 =
        fs.flatMap blockLines ++ ["endsolid"] := rfl
    have hrestNB : ¬ pyStrip ((["endsolid"] : List String).headD "") = "" := by decide
    have hnb0 : ¬ pyStrip (("solid" :: (fs.flatMap blockLines ++ ["endsolid"])).getD 0 "") =
        "" := by
      rw [getD_of_drop _ 0 _ _ rfl]
      decide
    have hnb1 : ¬ pyStrip (("solid" :: (fs.flatMap blockLines ++ ["endsolid"])).getD 1 "") =
        "" := by
      rw [getD_headD_of_drop _ 1 _ hd1]
      exact blocksNonblankHead fs ["endsolid"] hfs hrestNB
    have hg0 : ("solid" :: (fs.flatMap blockLines ++ ["endsolid"])).get? 0 = some "solid" :=
      rfl
    have htfc : (total_facet_count ("solid" :: (fs.flatMap blockLines ++ ["endsolid"]))).toNat
        = fs.length := by
      rw [← hL]
      exact tfc_ascii "" fs hfs
    have hloop := facetLoop_run strict false ("solid" :: (fs.flatMap blockLines ++
      ["endsolid"])) fs ["endsolid"] 1 (w + 1) e p hfs hd1 hrestNB
    have hdropF : ("solid" :: (fs.flatMap blockLines ++ ["endsolid"])).drop
        (1 + 7 * fs.length) = ["endsolid"] := by
      have h7 : ("solid" :: (fs.flatMap blockLines ++ ["endsolid"])).drop (1 + 7 * fs.length)
          = (("solid" :: (fs.flatMap blockLines ++ ["endsolid"])).drop 1).drop
            (7 * fs.length) := by rw [List.drop_drop]
      rw [h7, hd1]
      have hdl := List.drop_left (fs.flatMap blockLines) (["endsolid"] : List String)
      rw [blocks_length] at hdl
      exact hdl
    have hgF : ("solid" :: (fs.flatMap blockLines ++ ["endsolid"])).get? (1 + 7 * fs.length)
        = some "endsolid" := get?_of_drop _ _ _ _ hdropF
    have hlen : ("solid" :: (fs.flatMap blockLines ++ ["endsolid"])).length =
        2 + 7 * fs.length := by
      simp only [List.length_cons, List.length_append, blocks_length, List.length_nil]
      omega
    have hoob : ∀ q : List String, skipGo ("solid" :: (fs.flatMap blockLines ++ ["endsolid"]))
        false ("solid" :: (fs.flatMap blockLines ++ ["endsolid"])).length
        ⟨w + 1, e, 1 + 7 * fs.length + 1, q⟩ = ⟨w + 1, e, 1 + 7 * fs.length + 1, q⟩ := by
      intro q
      apply skipGo_oob
      simp only [hlen]
      omega
    have hbs : strBegins "solid" "solid" = true := by decide
    have hbe : strBegins "endsolid" "endsolid" = true := by decide
    have hmh : matchSolidHeader "solid" = false := by decide
    have hgF2 : ("solid" :: (fs.flatMap blockLines ++ ["endsolid"]))[1 + 7 * fs.length]? =
        some "endsolid" := by
      rw [← List.get?_eq_getElem?]
      exact hgF
    unfold asciiBody
    simp only [run_bind, run_pure, skip_empty_lines, go_to_next_line, get_current_line,
      hg0, hgF, hgF2,
      skipGo_id _ false _ ⟨w, e, 0, p⟩ hnb0,
      skipGo_id _ false _ ⟨w + 1, e, 1, p⟩ hnb1,
      htfc, hloop, hoob, hbs, hbe, hmh,
      handle_error_with_line_index, warnSt, pyWARNING, pyERROR, List.append_nil,
      Bool.not_true, Bool.not_false, Bool.false_eq_true, Bool.true_eq_false, if_false,
      if_true, decide_True, decide_False, Bool.not_eq_true, ne_eq, not_true, not_false_iff]
    norm_num
    omega
  · have hL : asciiLines name fs = ("solid " ++ name) ::
        (fs.flatMap blockLines ++ ["endsolid " ++ name]) := by
      simp [asciiLines, if_neg hn]
    rw [hL, if_neg hn]
    have hgood : (!pyIsSpace (name.data.headD 'a') &&
        name.data.all fun c => !(c = Char.ofNat 10)) = true := by
      unfold goodName at hname
      rw [Bool.or_eq_true] at hname
      rcases hname with hx | hx
      · exact absurd (by simpa [beq_iff_eq] using hx) hn
      · exact hx
    rw [Bool.and_eq_true] at hgood
    obtain ⟨hh, hnl⟩ := hgood
    have hhead : pyIsSpace (name.data.headD 'a') = false := by
      simpa using hh
    have hd1 : (("solid " ++ name) :: (fs.flatMap blockLines ++ ["endsolid " ++ name])).drop 1
        = fs.flatMap blockLines ++ ["endsolid " ++ name] := rfl
    have hrestNB : ¬ pyStrip ((["endsolid " ++ name] : List String).headD "") = "" := by
      simp only [List.headD_cons]
      exact nonblank_endsolid_name name
    have hnb0 : ¬ pyStrip ((("solid " ++ name) ::
        (fs.flatMap blockLines ++ ["endsolid " ++ name])).getD 0 "") = "" := by
      rw [getD_of_drop _ 0 _ _ rfl]
      exact nonblank_solid_name name
    have hnb1 : ¬ pyStrip ((("solid " ++ name) ::
        (fs.flatMap blockLines ++ ["endsolid " ++ name])).getD 1 "") = "" := by
      rw [getD_headD_of_drop _ 1 _ hd1]
      exact blocksNonblankHead fs _ hfs hrestNB
    have hg0 : (("solid " ++ name) :: (fs.flatMap blockLines ++ ["endsolid " ++ name])).get? 0
        = some ("solid " ++ name) := rfl
    have htfc : (total_facet_count (("solid " ++ name) ::
        (fs.flatMap blockLines ++ ["endsolid " ++ name]))).toNat = fs.length := by
      rw [← hL]
      exact tfc_ascii name fs hfs
    have hloop := facetLoop_run strict false (("solid " ++ name) ::
      (fs.flatMap blockLines ++ ["endsolid " ++ name])) fs ["endsolid " ++ name] 1 w e p hfs
      hd1 hrestNB
    have hdropF : (("solid " ++ name) :: (fs.flatMap blockLines ++
        ["endsolid " ++ name])).drop (1 + 7 * fs.length) = ["endsolid " ++ name] := by
      have h7 : (("solid " ++ name) :: (fs.flatMap blockLines ++
          ["endsolid " ++ name])).drop (1 + 7 * fs.length) =
          ((("solid " ++ name) :: (fs.flatMap blockLines ++
            ["endsolid " ++ name])).drop 1).drop (7 * fs.length) := by rw [List.drop_drop]
      rw [h7, hd1]
      have hdl := List.drop_left (fs.flatMap blockLines) (["endsolid " ++ name] : List String)
      rw [blocks_length] at hdl
      exact hdl
    have hgF : (("solid " ++ name) :: (fs.flatMap blockLines ++
        ["endsolid " ++ name])).get? (1 + 7 * fs.length) = some ("endsolid " ++ name) :=
      get?_of_drop _ _ _ _ hdropF
    have hlen : (("solid " ++ name) :: (fs.flatMap blockLines ++
        ["endsolid " ++ name])).length = 2 + 7 * fs.length := by
      simp only [List.length_cons, List.length_append, blocks_length, List.length_nil]
      omega
    have hoob : ∀ q : List String, skipGo (("solid " ++ name) ::
        (fs.flatMap blockLines ++ ["endsolid " ++ name])) false
        (("solid " ++ name) :: (fs.flatMap blockLines ++ ["endsolid " ++ name])).length
        ⟨w, e, 1 + 7 * fs.length + 1, q⟩ = ⟨w, e, 1 + 7 * fs.length + 1, q⟩ := by
      intro q
      apply skipGo_oob
      simp only [hlen]
      omega
    have hgF2 : (("solid " ++ name) :: (fs.flatMap blockLines ++
        ["endsolid " ++ name]))[1 + 7 * fs.length]? = some ("endsolid " ++ name) := by
      rw [← List.get?_eq_getElem?]
      exact hgF
    unfold asciiBody
    simp only [run_bind, run_pure, skip_empty_lines, go_to_next_line, get_current_line,
      hg0, hgF, hgF2,
      skipGo_id _ false _ ⟨w, e, 0, p⟩ hnb0,
      skipGo_id _ false _ ⟨w, e, 1, p⟩ hnb1,
      htfc, hloop, hoob,
      strBegins_solid name, strBegins_endsolid name,
      matchSolidHeader_true name hn hnl, solidName_eval name hhead,
      hn, Bool.not_true, Bool.not_false, Bool.false_eq_true, if_false, if_true, decide_True,
      decide_False, ne_eq, not_false_iff]
    norm_num
    omega

theorem claim_C3 (strict : Bool) (name : String) (fs : List FacetB) (path : String)
    (content : List Nat)
    (hlines : (linesOfBytes content).map normalizeLine = asciiLines name fs)
    (hbin : is_binary_stl content = false)
    (hname : goodName name = true)
    (hfs : ∀ b ∈ fs, blockOK b = true) :
    validate_stl_file strict false path content freshSt =
      RunOut.exit 0
        ⟨"pass",
          format_event_outcome_detail_note (some "STL (Standard Tessellation Language)")
            (some "ASCII")
            (some ("errors: 0, warnings: " ++ toString (if name = "" then (1 : Nat) else 0))),
          some (path ++ " validates.")⟩
        ⟨(if name = "" then 1 else 0), 0, 2 + 7 * fs.length, []⟩ := by
  have hrun : validate_ascii_stl_file strict false (linesOfBytes content) freshSt =
      VRes.ok () ⟨0 + (if name = "" then 1 else 0), 0, 2 + 7 * fs.length, []⟩ := by
    unfold validate_ascii_stl_file
    rw [hlines]
    exact ascii_run strict name fs 0 0 [] hname hfs
  unfold validate_stl_file dispatchValidator
  rw [hbin]
  simp only [Bool.false_eq_true, if_false, hrun, Nat.zero_add]
  rfl

theorem claim_C3_witness :
    validate_stl_file true false "f" (bytesOfString "solid x\nendsolid x") freshSt =
      RunOut.exit 0
        ⟨"pass",
          format_event_outcome_detail_note (some "STL (Standard Tessellation Language)")
            (some "ASCII")
            (some ("errors: 0, warnings: " ++
              toString (if ("x" : String) = "" then (1 : Nat) else 0))),
          some ("f" ++ " validates.")⟩
        ⟨(if ("x" : String) = "" then 1 else 0), 0, 2 + 7 * ([] : List FacetB).length, []⟩ :=
  claim_C3 true "x" [] "f" (bytesOfString "solid x\nendsolid x")
    (by decide) (by decide) (by decide) (by intro b hb; exact absurd hb (List.not_mem_nil b))

/-! ### Counter-shift structure of the validators (for the idempotence claim) -/

/-- Add baseline counters and printed output to a state. -/
def shiftSt (w e : Nat) (p : List String) (s : VSt) : VSt :=
  ⟨w + s.warnings, e + s.errors, s.lineIdx, p ++ s.printed⟩

/-- Add baseline counters and printed output to a result. -/
def shiftRes {α : Type} (w e : Nat) (p : List String) : VRes α → VRes α
  | .ok a s => .ok a (shiftSt w e p s)
  | .exc m s => .exc m (shiftSt w e p s)
  | .fault f s => .fault f (shiftSt w e p s)

/-- A computation only ever adds to the counters and the printed output:
its behaviour from any state equals its behaviour from the zeroed state at
the same cursor, shifted by the baseline. -/
def Shifts {α : Type} (m : M α) : Prop :=
  ∀ (w e : Nat) (p : List String) (i : Nat),
    m ⟨w, e, i, p⟩ = shiftRes w e p (m ⟨0, 0, i, []⟩)

theorem shiftSt_comp (w e : Nat) (p : List String) (w2 e2 : Nat) (p2 : List String)
    (s : VSt) : shiftSt w e p (shiftSt w2 e2 p2 s) = shiftSt (w + w2) (e + e2) (p ++ p2) s := by
  simp [shiftSt, Nat.add_assoc, List.append_assoc]

theorem shiftRes_comp {α : Type} (w e : Nat) (p : List String) (w2 e2 : Nat)
    (p2 : List String) (r : VRes α) :
    shiftRes w e p (shiftRes w2 e2 p2 r) = shiftRes (w + w2) (e + e2) (p ++ p2) r := by
  cases r <;> simp [shiftRes, shiftSt_comp]

theorem shifts_pure {α : Type} (a : α) : Shifts (pure a : M α) := by
  intro w e p i
  simp [run_pure, shiftRes, shiftSt]

theorem shifts_bind {α β : Type} {x : M α} {f : α → M β} (hx : Shifts x)
    (hf : ∀ a, Shifts (f a)) : Shifts (x >>= f) := by
  intro w e p i
  rw [run_bind, run_bind, hx w e p i]
  cases hx0 : x ⟨0, 0, i, []⟩ with
  | ok a s0 =>
    simp only [shiftRes]
    have h1 : f a (shiftSt w e p s0) = shiftRes w e p (f a s0) := by
      have hs0 : s0 = ⟨s0.warnings, s0.errors, s0.lineIdx, s0.printed⟩ := rfl
      calc f a (shiftSt w e p s0)
          = f a ⟨w + s0.warnings, e + s0.errors, s0.lineIdx, p ++ s0.printed⟩ := rfl
        _ = shiftRes (w + s0.warnings) (e + s0.errors) (p ++ s0.printed)
              (f a ⟨0, 0, s0.lineIdx, []⟩) := hf a _ _ _ _
        _ = shiftRes w e p (shiftRes s0.warnings s0.errors s0.printed
              (f a ⟨0, 0, s0.lineIdx, []⟩)) := by rw [shiftRes_comp]
        _ = shiftRes w e p (f a s0) := by rw [← hf a s0.warnings s0.errors s0.printed s0.lineIdx]
    exact h1
  | exc m s0 => simp [shiftRes]
  | fault ff s0 => simp [shiftRes]

theorem shifts_ite {α : Type} (c : Prop) [Decidable c] (x y : M α) (hx : Shifts x)
    (hy : Shifts y) : Shifts (if c then x else y) := by
  by_cases hc : c
  · simpa [hc] using hx
  · simpa [hc] using hy

theorem shifts_get (lines : List String) : Shifts (get_current_line lines) := by
  intro w e p i
  unfold get_current_line
  cases h : lines.get? i <;> simp [h, shiftRes, shiftSt]

theorem shifts_handler_line (verbose ty : Bool) (expected : String) (got : Option String) :
    Shifts (handle_error_with_line_index verbose ty expected got) := by
  intro w e p i
  unfold handle_error_with_line_index
  cases ty <;> simp [errorSt, warnSt, shiftRes, shiftSt]

theorem shifts_handler_pos (verbose ty : Bool) (pos : Nat) (expected : String)
    (got : Option String) : Shifts (handle_error_with_file_pos verbose ty pos expected got) := by
  intro w e p i
  unfold handle_error_with_file_pos
  cases ty <;> simp [errorSt, warnSt, shiftRes, shiftSt]

theorem skipGo_shift (lines : List String) (verbose : Bool) (fuel : Nat) :
    ∀ (w e : Nat) (p : List String) (i : Nat),
      skipGo lines verbose fuel ⟨w, e, i, p⟩ =
        shiftSt w e p (skipGo lines verbose fuel ⟨0, 0, i, []⟩) := by
  induction fuel with
  | zero => intro w e p i; simp [skipGo, shiftSt]
  | succ k ih =>
    intro w e p i
    unfold skipGo
    by_cases hc : lines.length > i + 1 ∧ pyStrip (lines.getD i "") = ""
    · rw [if_pos hc, if_pos hc]
      simp only [warnSt, List.nil_append, Nat.zero_add]
      rw [ih (w + 1) e _ (i + 1), ih 1 0 _ (i + 1), shiftSt_comp]
      simp [shiftSt, Nat.add_comm]
    · rw [if_neg hc, if_neg hc]
      simp [shiftSt]

theorem shifts_skip (lines : List String) (verbose : Bool) :
    Shifts (skip_empty_lines lines verbose) := by
  intro w e p i
  unfold skip_empty_lines
  rw [skipGo_shift]
  rfl

theorem shifts_goto (lines : List String) (verbose : Bool) :
    Shifts (go_to_next_line lines verbose) := by
  intro w e p i
  unfold go_to_next_line
  simp only []
  rw [show (⟨w, e, i, p⟩ : VSt).lineIdx + 1 = i + 1 from rfl]
  rw [skipGo_shift lines verbose lines.length w e p (i + 1)]
  rfl

theorem shifts_parse (toks : List String) : Shifts (parseFloats toks) := by
  intro w e p i
  unfold parseFloats
  by_cases hc : (toks.map pyFloatOfToken).contains none = true
  · simp only [if_pos hc]
    simp [shiftRes, shiftSt]
  · rw [Bool.not_eq_true] at hc
    simp only [hc, Bool.false_eq_true, if_false]
    cases hf : floats3 toks with
    | none => simp only [hf]; simp [shiftRes, shiftSt]
    | some t =>
      obtain ⟨a, b, c⟩ := t
      simp only [hf]
      simp [shiftRes, shiftSt]

theorem shifts_readVertex (strict verbose : Bool) (lines : List String) :
    Shifts (readVertex strict verbose lines) := by
  unfold readVertex
  repeat
    first
    | exact shifts_pure _
    | exact shifts_get _
    | exact shifts_handler_line _ _ _ _
    | exact shifts_handler_pos _ _ _ _ _
    | exact shifts_goto _ _
    | exact shifts_skip _ _
    | exact shifts_parse _
    | apply shifts_ite
    | apply shifts_bind
    | intro _
    | dsimp only

theorem shifts_validateFacet (strict verbose : Bool) (lines : List String) :
    Shifts (validateFacet strict verbose lines) := by
  unfold validateFacet
  repeat
    first
    | exact shifts_pure _
    | exact shifts_get _
    | exact shifts_handler_line _ _ _ _
    | exact shifts_handler_pos _ _ _ _ _
    | exact shifts_goto _ _
    | exact shifts_skip _ _
    | exact shifts_parse _
    | exact shifts_readVertex _ _ _
    | apply shifts_ite
    | apply shifts_bind
    | intro _
    | dsimp only

theorem shifts_facetLoop (strict verbose : Bool) (lines : List String) :
    ∀ k, Shifts (facetLoop strict verbose lines k) := by
  intro k
  induction k with
  | zero => exact shifts_pure ()
  | succ kk ih =>
    exact shifts_bind (shifts_validateFacet strict verbose lines) (fun _ => ih)

theorem shifts_asciiBody (strict verbose : Bool) (lines : List String) :
    Shifts (asciiBody strict verbose lines) := by
  unfold asciiBody
  repeat
    first
    | exact shifts_pure _
    | exact shifts_get _
    | exact shifts_handler_line _ _ _ _
    | exact shifts_handler_pos _ _ _ _ _
    | exact shifts_goto _ _
    | exact shifts_skip _ _
    | exact shifts_parse _
    | exact shifts_facetLoop _ _ _ _
    | apply shifts_ite
    | apply shifts_bind
    | intro _
    | dsimp only

theorem shifts_validate_ascii (strict verbose : Bool) (raw : List String) :
    Shifts (validate_ascii_stl_file strict verbose raw) := by
  intro w e p i
  show asciiBody strict verbose (raw.map normalizeLine) ⟨w, e, 0, p⟩ = _
  rw [shifts_asciiBody strict verbose (raw.map normalizeLine) w e p 0]
  rfl

theorem shifts_processRecord (strict verbose : Bool) (i : Nat) (n v1 v2 v3 : V3)
    (attr : Nat) : Shifts (processRecord strict verbose i n v1 v2 v3 attr) := by
  unfold processRecord
  repeat
    first
    | exact shifts_pure _
    | exact shifts_handler_line _ _ _ _
    | exact shifts_handler_pos _ _ _ _ _
    | apply shifts_ite
    | apply shifts_bind
    | intro _
    | dsimp only

theorem shifts_binLoop (strict verbose : Bool) (f : List Nat) :
    ∀ k i, Shifts (binLoop strict verbose f k i) := by
  intro k
  induction k with
  | zero => intro i; exact shifts_pure ()
  | succ kk ih =>
    intro i
    intro w e p j
    show binLoop strict verbose f (kk + 1) i ⟨w, e, j, p⟩ = _
    unfold binLoop
    cases h1 : unpack3fAt f (84 + i * 50) with
    | none => simp [h1, shiftRes, shiftSt]
    | some n =>
      cases h2 : unpack3fAt f (84 + i * 50 + 12) with
      | none => simp [h1, h2, shiftRes, shiftSt]
      | some v1 =>
        cases h3 : unpack3fAt f (84 + i * 50 + 24) with
        | none => simp [h1, h2, h3, shiftRes, shiftSt]
        | some v2 =>
          cases h4 : unpack3fAt f (84 + i * 50 + 36) with
          | none => simp [h1, h2, h3, h4, shiftRes, shiftSt]
          | some v3 =>
            cases h5 : unpackLE16At f (84 + i * 50 + 48) with
            | none => simp [h1, h2, h3, h4, h5, shiftRes, shiftSt]
            | some attr =>
              simp only [h1, h2, h3, h4, h5]
              exact shifts_bind (shifts_processRecord strict verbose i n v1 v2 v3 attr)
                (fun _ => ih (i + 1)) w e p j

theorem shifts_validate_binary (strict verbose : Bool) (f : List Nat) :
    Shifts (validate_binary_stl_file strict verbose f) := by
  intro w e p i
  unfold validate_binary_stl_file
  cases h : unpackLE32At f 80 with
  | none => simp [h, shiftRes, shiftSt]
  | some t =>
    simp only [h]
    exact shifts_binLoop strict verbose f t 0 w e p i

theorem shifts_dispatch (strict verbose : Bool) (content : List Nat) :
    Shifts (dispatchValidator strict verbose content) := by
  unfold dispatchValidator
  exact shifts_ite _ _ _ (shifts_validate_binary _ _ _) (shifts_validate_ascii _ _ _)

/-! ### The binary validator does not move the line cursor -/

/-- The computation leaves the line cursor unchanged. -/
def KeepsIdx {α : Type} (m : M α) : Prop :=
  ∀ s : VSt, (stateOf (m s)).lineIdx = s.lineIdx

theorem keeps_pure {α : Type} (a : α) : KeepsIdx (pure a : M α) := fun _ => rfl

theorem keeps_bind {α β : Type} {x : M α} {f : α → M β} (hx : KeepsIdx x)
    (hf : ∀ a, KeepsIdx (f a)) : KeepsIdx (x >>= f) := by
  intro s
  rw [run_bind]
  cases hr : x s with
  | ok a s1 =>
    have h1 : s1.lineIdx = s.lineIdx := by
      have := hx s
      rw [hr] at this
      exact this
    rw [← h1]
    exact hf a s1
  | exc m s1 =>
    have := hx s
    rw [hr] at this
    exact this
  | fault ff s1 =>
    have := hx s
    rw [hr] at this
    exact this

theorem keeps_ite {α : Type} (c : Prop) [Decidable c] (x y : M α) (hx : KeepsIdx x)
    (hy : KeepsIdx y) : KeepsIdx (if c then x else y) := by
  by_cases hc : c
  · simpa [hc] using hx
  · simpa [hc] using hy

theorem keeps_handler_line (verbose ty : Bool) (expected : String) (got : Option String) :
    KeepsIdx (handle_error_with_line_index verbose ty expected got) := by
  intro s
  unfold handle_error_with_line_index
  cases ty <;> simp [stateOf, errorSt, warnSt]

theorem keeps_handler_pos (verbose ty : Bool) (pos : Nat) (expected : String)
    (got : Option String) : KeepsIdx (handle_error_with_file_pos verbose ty pos expected got) := by
  intro s
  unfold handle_error_with_file_pos
  cases ty <;> simp [stateOf, errorSt, warnSt]

theorem keeps_processRecord (strict verbose : Bool) (i : Nat) (n v1 v2 v3 : V3)
    (attr : Nat) : KeepsIdx (processRecord strict verbose i n v1 v2 v3 attr) := by
  unfold processRecord
  repeat
    first
    | exact keeps_pure _
    | exact keeps_handler_line _ _ _ _
    | exact keeps_handler_pos _ _ _ _ _
    | apply keeps_ite
    | apply keeps_bind
    | intro _
    | dsimp only

theorem keeps_binLoop (strict verbose : Bool) (f : List Nat) :
    ∀ k i, KeepsIdx (binLoop strict verbose f k i) := by
  intro k
  induction k with
  | zero => intro i; exact keeps_pure ()
  | succ kk ih =>
    intro i s
    show (stateOf (binLoop strict verbose f (kk + 1) i s)).lineIdx = s.lineIdx
    unfold binLoop
    cases h1 : unpack3fAt f (84 + i * 50) with
    | none => rfl
    | some n =>
      cases h2 : unpack3fAt f (84 + i * 50 + 12) with
      | none => rfl
      | some v1 =>
        cases h3 : unpack3fAt f (84 + i * 50 + 24) with
        | none => rfl
        | some v2 =>
          cases h4 : unpack3fAt f (84 + i * 50 + 36) with
          | none => rfl
          | some v3 =>
            cases h5 : unpackLE16At f (84 + i * 50 + 48) with
            | none => rfl
            | some attr =>
              exact keeps_bind (keeps_processRecord strict verbose i n v1 v2 v3 attr)
                (fun _ => ih (i + 1)) s

theorem keeps_validate_binary (strict verbose : Bool) (f : List Nat) :
    KeepsIdx (validate_binary_stl_file strict verbose f) := by
  intro s
  unfold validate_binary_stl_file
  cases h : unpackLE32At f 80 with
  | none => rfl
  | some t => exact keeps_binLoop strict verbose f t 0 s

/-! ### Claim C9: successive runs of the validator -/

/-- The global state carried out of a run. -/
def runStateOf : RunOut → VSt
  | .exit _ _ s => s
  | .crash _ s => s

/-- Two runs deliver the same verdict: equal exit codes and outcome strings,
or the same escaping fault. -/
def agreeVerdict (r1 r2 : RunOut) : Prop :=
  match r1, r2 with
  | .exit c1 rep1 _, .exit c2 rep2 _ =>
    c1 = c2 ∧ rep1.eventOutcomeInformation = rep2.eventOutcomeInformation
  | .crash f1 _, .crash f2 _ => f1 = f2
  | _, _ => False

/-- The message of the orchestrator's own `Validation failed` raise. -/
def failMsg (s : VSt) : String :=
  "Validation failed: errors=" ++ toString s.errors ++ ", warnings=" ++
    toString s.warnings ++ ", first error: "

theorem vsf_ok_pos (strict verbose : Bool) (path : String) (content : List Nat) (s0 : VSt)
    (a : Unit) (s : VSt) (hd : dispatchValidator strict verbose content s0 = VRes.ok a s)
    (he : s.errors > 0) :
    validate_stl_file strict verbose path content s0 =
      RunOut.exit 1 ⟨"fail", failMsg s, none⟩ { s with printed := s.printed ++ [failMsg s] } := by
  unfold validate_stl_file
  rw [hd]
  dsimp only
  rw [if_pos he]
  rfl

theorem vsf_ok_zero (strict verbose : Bool) (path : String) (content : List Nat) (s0 : VSt)
    (a : Unit) (s : VSt) (hd : dispatchValidator strict verbose content s0 = VRes.ok a s)
    (he : ¬ s.errors > 0) :
    validate_stl_file strict verbose path content s0 =
      RunOut.exit 0
        ⟨"pass",
          format_event_outcome_detail_note (some "STL (Standard Tessellation Language)")
            (some (if is_binary_stl content then "binary" else "ASCII"))
            (some ("errors: " ++ toString s.errors ++ ", warnings: " ++ toString s.warnings)),
          some (path ++ " validates.")⟩ s := by
  unfold validate_stl_file
  rw [hd]
  dsimp only
  rw [if_neg he]

theorem vsf_exc (strict verbose : Bool) (path : String) (content : List Nat) (s0 : VSt)
    (m : String) (s : VSt) (hd : dispatchValidator strict verbose content s0 = VRes.exc m s) :
    validate_stl_file strict verbose path content s0 = RunOut.exit 1 ⟨"fail", m, none⟩ s := by
  unfold validate_stl_file
  rw [hd]

theorem vsf_fault (strict verbose : Bool) (path : String) (content : List Nat) (s0 : VSt)
    (f : PyFault) (s : VSt)
    (hd : dispatchValidator strict verbose content s0 = VRes.fault f s) :
    validate_stl_file strict verbose path content s0 = RunOut.crash f s := by
  unfold validate_stl_file
  rw [hd]

/-- The dispatched validator behaves from a zeroed state at any cursor like
from the fresh state, provided the cursor is 0 whenever the binary branch is
taken (the ASCII branch resets the cursor itself). -/
theorem dispatch_idx_zero (strict verbose : Bool) (content : List Nat) (i : Nat)
    (h : is_binary_stl content = true → i = 0) :
    dispatchValidator strict verbose content ⟨0, 0, i, []⟩ =
      dispatchValidator strict verbose content freshSt := by
  unfold dispatchValidator
  by_cases hb : is_binary_stl content = true
  · rw [if_pos hb, h hb]
    rfl
  · rw [Bool.not_eq_true] at hb
    rw [hb]
    simp only [Bool.false_eq_true, if_false]
    rfl

/-- Second-run dispatch: from the final state of a fresh run, the validator
repeats the fresh run, shifted by the accumulated counters. -/
theorem dispatch_again (strict verbose : Bool) (content : List Nat) (s1 : VSt)
    (hidx : is_binary_stl content = true → s1.lineIdx = 0) :
    dispatchValidator strict verbose content s1 =
      shiftRes s1.warnings s1.errors s1.printed
        (dispatchValidator strict verbose content freshSt) := by
  have hshift := shifts_dispatch strict verbose content s1.warnings s1.errors s1.printed
    s1.lineIdx
  have hs1 : s1 = ⟨s1.warnings, s1.errors, s1.lineIdx, s1.printed⟩ := rfl
  rw [hs1] at hshift ⊢
  rw [hshift, dispatch_idx_zero strict verbose content s1.lineIdx hidx]

/-- C9 (amended): running the validator twice on the same unchanged file in
one process yields the same pass/fail verdict (and the same escaping fault,
if any); when the first run fails through a raised validation error, the
second run fails with the identical message; the counters, however, persist
and accumulate, so count-bearing report fields can differ. -/
theorem claim_C9_amended (strict verbose : Bool) (path : String) (content : List Nat) :
    agreeVerdict (validate_stl_file strict verbose path content freshSt)
      (validate_stl_file strict verbose path content
        (runStateOf (validate_stl_file strict verbose path content freshSt))) ∧
    (∀ m sA, dispatchValidator strict verbose content freshSt = VRes.exc m sA →
      validate_stl_file strict verbose path content freshSt =
        RunOut.exit 1 ⟨"fail", m, none⟩ sA ∧
      ∃ s2, validate_stl_file strict verbose path content
          (runStateOf (validate_stl_file strict verbose path content freshSt)) =
        RunOut.exit 1 ⟨"fail", m, none⟩ s2) := by
  have hkeeps : is_binary_stl content = true →
      ∀ s0 : VSt, (stateOf (dispatchValidator strict verbose content s0)).lineIdx =
        s0.lineIdx := by
    intro hb s0
    have hk : KeepsIdx (dispatchValidator strict verbose content) := by
      unfold dispatchValidator
      rw [if_pos hb]
      exact keeps_validate_binary strict verbose content
    exact hk s0
  cases hd : dispatchValidator strict verbose content freshSt with
  | ok a sA =>
    have hidxA : is_binary_stl content = true → sA.lineIdx = 0 := by
      intro hb
      have hkf := hkeeps hb freshSt
      rw [hd] at hkf
      exact hkf
    by_cases he : sA.errors > 0
    · have h1 := vsf_ok_pos strict verbose path content freshSt a sA hd he
      rw [h1]
      simp only [runStateOf]
      have hidxA2 : is_binary_stl content = true →
          ({ sA with printed := sA.printed ++ [failMsg sA] } : VSt).lineIdx = 0 := hidxA
      have hd2 : dispatchValidator strict verbose content
          { sA with printed := sA.printed ++ [failMsg sA] } =
          VRes.ok a (shiftSt sA.warnings sA.errors (sA.printed ++ [failMsg sA]) sA) := by
        rw [dispatch_again strict verbose content
          { sA with printed := sA.printed ++ [failMsg sA] } hidxA2, hd]
        rfl
      have he2 : (shiftSt sA.warnings sA.errors (sA.printed ++ [failMsg sA]) sA).errors >
          0 := by
        simp [shiftSt]
        omega
      have h2 := vsf_ok_pos strict verbose path content _ a _ hd2 he2
      rw [h2]
      constructor
      · exact ⟨rfl, rfl⟩
      · intro m sA2 hx
        cases hx
    · have h1 := vsf_ok_zero strict verbose path content freshSt a sA hd he
      rw [h1]
      simp only [runStateOf]
      have hd2 : dispatchValidator strict verbose content sA =
          VRes.ok a (shiftSt sA.warnings sA.errors sA.printed sA) := by
        rw [dispatch_again strict verbose content sA hidxA, hd]
        rfl
      have he2 : ¬ (shiftSt sA.warnings sA.errors sA.printed sA).errors > 0 := by
        simp [shiftSt]
        omega
      have h2 := vsf_ok_zero strict verbose path content _ a _ hd2 he2
      rw [h2]
      constructor
      · exact ⟨rfl, rfl⟩
      · intro m sA2 hx
        cases hx
  | exc m sA =>
    have hidxA : is_binary_stl content = true → sA.lineIdx = 0 := by
      intro hb
      have hkf := hkeeps hb freshSt
      rw [hd] at hkf
      exact hkf
    have h1 := vsf_exc strict verbose path content freshSt m sA hd
    rw [h1]
    simp only [runStateOf]
    have hd2 : dispatchValidator strict verbose content sA =
        VRes.exc m (shiftSt sA.warnings sA.errors sA.printed sA) := by
      rw [dispatch_again strict verbose content sA hidxA, hd]
      rfl
    have h2 := vsf_exc strict verbose path content sA m _ hd2
    rw [h2]
    refine ⟨⟨rfl, rfl⟩, ?_⟩
    intro m2 sA2 hx
    simp only [VRes.exc.injEq] at hx
    obtain ⟨hm2, hs2⟩ := hx
    subst hm2
    subst hs2
    exact ⟨rfl, ⟨_, rfl⟩⟩
  | fault f sA =>
    have hidxA : is_binary_stl content = true → sA.lineIdx = 0 := by
      intro hb
      have hkf := hkeeps hb freshSt
      rw [hd] at hkf
      exact hkf
    have h1 := vsf_fault strict verbose path content freshSt f sA hd
    rw [h1]
    simp only [runStateOf]
    have hd2 : dispatchValidator strict verbose content sA =
        VRes.fault f (shiftSt sA.warnings sA.errors sA.printed sA) := by
      rw [dispatch_again strict verbose content sA hidxA, hd]
      rfl
    have h2 := vsf_fault strict verbose path content sA f _ hd2
    rw [h2]
    refine ⟨rfl, ?_⟩
    intro m sA2 hx
    cases hx

/-- Counterexample to C9 as stated: the module-level warning counter is NOT
reset between runs.  Running the validator twice in the same process on the
ASCII file `solid x\n\nendsolid x` (whose blank line records one warning),
the first run reports `warnings: 1` but the second run, started from the
state the first run left behind, reports `warnings: 2`, so the two runs
produce different reports for the same file. -/
theorem claim_C9_counterexample :
    validate_stl_file false false "f" (bytesOfString "solid x\n\nendsolid x") freshSt =
      RunOut.exit 0
        ⟨"pass",
          "format=\"STL (Standard Tessellation Language)\"; version=\"ASCII\"; result=\"errors: 0, warnings: 1\"",
          some "f validates."⟩ ⟨1, 0, 3, []⟩ ∧
    validate_stl_file false false "f" (bytesOfString "solid x\n\nendsolid x") ⟨1, 0, 3, []⟩ =
      RunOut.exit 0
        ⟨"pass",
          "format=\"STL (Standard Tessellation Language)\"; version=\"ASCII\"; result=\"errors: 0, warnings: 2\"",
          some "f validates."⟩ ⟨2, 0, 3, []⟩ ∧
    ("format=\"STL (Standard Tessellation Language)\"; version=\"ASCII\"; result=\"errors: 0, warnings: 1\"" : String) ≠
    "format=\"STL (Standard Tessellation Language)\"; version=\"ASCII\"; result=\"errors: 0, warnings: 2\"" := by
  exact ⟨by decide, by decide, by decide⟩

/-- Witness for C9 (amended), at the file `nope`: the first run from a fresh
state exits 1 with a `fail` report carrying the raised message, and a second
run started from the leftover state again exits 1 with a `fail` report
carrying the same message. -/
theorem claim_C9_witness :
    validate_stl_file false false "f" (bytesOfString "nope") freshSt =
      RunOut.exit 1
        ⟨"fail",
          "Error on line 1: Expected " ++ quo ++ "solid" ++ quo ++ " but got " ++
            quo ++ "nope" ++ quo ++ ".", none⟩
        ⟨0, 1, 0,
          ["Error on line 1: Expected " ++ quo ++ "solid" ++ quo ++ " but got " ++
            quo ++ "nope" ++ quo ++ "."]⟩ ∧
    ∃ s2, validate_stl_file false false "f" (bytesOfString "nope")
        (runStateOf (validate_stl_file false false "f" (bytesOfString "nope") freshSt)) =
      RunOut.exit 1
        ⟨"fail",
          "Error on line 1: Expected " ++ quo ++ "solid" ++ quo ++ " but got " ++
            quo ++ "nope" ++ quo ++ ".", none⟩ s2 :=
  (claim_C9_amended false false "f" (bytesOfString "nope")).2
    ("Error on line 1: Expected " ++ quo ++ "solid" ++ quo ++ " but got " ++
      quo ++ "nope" ++ quo ++ ".")
    ⟨0, 1, 0,
      ["Error on line 1: Expected " ++ quo ++ "solid" ++ quo ++ " but got " ++
        quo ++ "nope" ++ quo ++ "."]⟩
    (by decide)
